import Mathlib

/-!
Verification of the pimble persistence/synchronization core against its
specification.

The development shallowly embeds the Rust sources:
* `crates/pimble-crdt/src/document.rs` and `node_content.rs` — the CRDT
  document wrapper (`CrdtDocument`, `DocumentContent`);
* `crates/pimble-crdt/src/error.rs` — `CrdtError`;
* `crates/pimble-core/src/node.rs` and `store.rs` — `Node`, `NodeMetadata`,
  `NodeLink`, `StoreManifest`;
* `crates/pimble-store/src/local.rs` — `LocalStore` with its on-disk layout,
  cache, dirty set and flush;
* `crates/pimble-store/src/manager.rs` — `StoreManager`;
* `crates/pimble-store/src/error.rs` — `StoreError`.

The automerge backend is an external crate; it is modelled from the spec's
CRDT contracts (section 4.1): a document is its set of atomic changes, each
change carrying an actor id, a per-actor sequence number and a list of
operations; the visible state is a deterministic function of the change set
(changes are replayed in a canonical order); `merge` is history union;
`save`/`load` serialize the full change history.  Randomly generated values
(UUIDs, fresh actor ids, clock readings) appear as explicit parameters.
Filesystem writes are mediated by a `WOracle` deciding which writes succeed,
so that partial-flush behaviour is expressible.
-/

namespace Pimble

/-! ## Association-list maps (model of `HashMap`) and set-lists (model of `HashSet`) -/

/-- Overwrite the binding of key `k` with `v` (model of `HashMap::insert`). -/
def kvSet {κ α : Type} [BEq κ] (k : κ) (v : α) (m : List (κ × α)) : List (κ × α) :=
  (k, v) :: m.filter (fun p => !(p.1 == k))

/-- Remove the binding of key `k` (model of `HashMap::remove`). -/
def kvErase {κ α : Type} [BEq κ] (k : κ) (m : List (κ × α)) : List (κ × α) :=
  m.filter (fun p => !(p.1 == k))

/-- Insert an element into a set-list (model of `HashSet::insert`). -/
def setInsert {α : Type} [BEq α] (x : α) (s : List α) : List α :=
  if s.contains x then s else s ++ [x]

/-- Remove an element from a set-list (model of `HashSet::remove`). -/
def setRemove {α : Type} [BEq α] (x : α) (s : List α) : List α :=
  s.filter (fun y => !(y == x))

theorem kvSet_lookup_self {κ α : Type} [BEq κ] [LawfulBEq κ] (k : κ) (v : α)
    (m : List (κ × α)) : (kvSet k v m).lookup k = some v := by
  simp [kvSet, List.lookup]

theorem lookup_filter_ne {κ α : Type} [BEq κ] [LawfulBEq κ] {k k' : κ}
    (m : List (κ × α)) (h : k' ≠ k) :
    (m.filter (fun p => !(p.1 == k))).lookup k' = m.lookup k' := by
  induction m with
  | nil => rfl
  | cons hd tl ih =>
    by_cases hk : hd.1 = k
    · have h1 : (hd.1 == k) = true := by simp [hk]
      have h2 : (k' == hd.1) = false := by simp [hk, h]
      simp [List.filter, h1, List.lookup, h2, ih]
    · have h1 : (hd.1 == k) = false := by simp [hk]
      by_cases hk' : hd.1 = k'
      · have h2 : (k' == hd.1) = true := by simp [hk']
        simp [List.filter, h1, List.lookup, h2]
      · have h2 : (k' == hd.1) = false := by
          simp
          exact fun he => hk' he.symm
        simp [List.filter, h1, List.lookup, h2, ih]

theorem kvSet_lookup_ne {κ α : Type} [BEq κ] [LawfulBEq κ] {k k' : κ} (v : α)
    (m : List (κ × α)) (h : k' ≠ k) :
    (kvSet k v m).lookup k' = m.lookup k' := by
  have h2 : (k' == k) = false := by simp [h]
  simp [kvSet, List.lookup, h2, lookup_filter_ne m h]

theorem kvErase_lookup_self {κ α : Type} [BEq κ] [LawfulBEq κ] (k : κ)
    (m : List (κ × α)) : (kvErase k m).lookup k = none := by
  induction m with
  | nil => rfl
  | cons hd tl ih =>
    by_cases hk : hd.1 = k
    · have h1 : (hd.1 == k) = true := by simp [hk]
      simpa [kvErase, List.filter, h1] using ih
    · have h1 : (hd.1 == k) = false := by simp [hk]
      have h2 : (k == hd.1) = false := by
        simp
        exact fun he => hk he.symm
      simpa [kvErase, List.filter, h1, List.lookup, h2] using ih

theorem kvErase_lookup_ne {κ α : Type} [BEq κ] [LawfulBEq κ] {k k' : κ}
    (m : List (κ × α)) (h : k' ≠ k) :
    (kvErase k m).lookup k' = m.lookup k' :=
  lookup_filter_ne m h

/-! ## Model of the automerge backend (spec section 4.1)

Modelled from the spec: the automerge crate is external to the repository.
A document's content is a register map at the root plus mergeable text
sequences; its identity is the set of changes it has integrated.  The
visible state is computed by replaying the changes in a canonical,
history-determined order, so that it depends only on the change set. -/

/-- Modelled from the spec: automerge scalar values (the kinds reachable
through this repository's wrapper, plus `uint`, which can arrive in a
loaded foreign document). -/
inductive AmScalar : Type where
  | str (s : String)
  | int (i : Int)
  | uint (u : Nat)
  | boolean (b : Bool)
  | null
deriving DecidableEq, Repr

/-- Modelled from the spec: a value at a top-level key is a scalar or a
text object (`ObjType::Text`). -/
inductive AmVal : Type where
  | scalar (s : AmScalar)
  | text (t : String)
deriving DecidableEq, Repr

/-- Modelled from the spec: one atomic operation inside a change. -/
inductive AmOp : Type where
  | put (key : String) (v : AmScalar)
  | del (key : String)
  | putText (key : String)
  | splice (key : String) (pos : Nat) (delCount : Nat) (ins : String)
deriving DecidableEq, Repr

/-- Modelled from the spec: an atomic change record — the unit exchanged for
synchronization — identified by its actor and per-actor sequence number. -/
structure Change : Type where
  actor : Nat
  seq : Nat
  ops : List AmOp
deriving DecidableEq, Repr

/-- Modelled from the spec: the materialized root state of a document. -/
structure AmState : Type where
  root : List (String × AmVal)
deriving DecidableEq, Repr

/-- Replace the character range `[pos, pos+delCount)` of `s` by `ins`
(positions clamp at the end of the string). -/
def strSplice (s : String) (pos delCount : Nat) (ins : String) : String :=
  String.mk (s.toList.take pos ++ ins.toList ++ s.toList.drop (pos + delCount))

/-- Apply one operation to a root state. -/
def AmState.applyOp (st : AmState) (op : AmOp) : AmState :=
  match op with
  | .put k v => ⟨kvSet k (.scalar v) st.root⟩
  | .del k => ⟨kvErase k st.root⟩
  | .putText k => ⟨kvSet k (.text "") st.root⟩
  | .splice k pos d ins =>
      match st.root.lookup k with
      | some (.text t) => ⟨kvSet k (.text (strSplice t pos d ins)) st.root⟩
      | _ => st

/-- Apply all operations of a change in order. -/
def AmState.applyChange (st : AmState) (c : Change) : AmState :=
  c.ops.foldl AmState.applyOp st

/-- The distinct actor ids occurring in a change list. -/
def actorsOf (cs : List Change) : List Nat :=
  (cs.map Change.actor).dedup

/-- Canonical replay order: actors in ascending order, each actor's changes
in their (per-actor causal) list order.  This makes the evaluation a
function of the change set alone, as the spec requires of CRDT merge. -/
def canonical (cs : List Change) : List Change :=
  (List.insertionSort (· ≤ ·) (actorsOf cs)).flatMap
    (fun a => cs.filter (fun c => c.actor == a))

/-- Deterministic evaluation of a change history into a root state. -/
def evalChanges (cs : List Change) : AmState :=
  (canonical cs).foldl AmState.applyChange ⟨[]⟩

/-- Number of changes by actor `a` (the next change by `a` gets sequence
number `aCount + 1`). -/
def aCount (a : Nat) (cs : List Change) : Nat :=
  (cs.filter (fun c => c.actor == a)).length

/-- Modelled from the spec: an `automerge::AutoCommit` document — its change
history plus the local actor id used for new edits. -/
structure AutoCommit : Type where
  changes : List Change
  actor : Nat
deriving DecidableEq, Repr

/-- A fresh empty document for the given (randomly drawn) actor. -/
def AutoCommit.new (actor : Nat) : AutoCommit := ⟨[], actor⟩

/-- Commit a transaction: append one change holding `ops`, with the next
per-actor sequence number. -/
def AutoCommit.addChange (d : AutoCommit) (ops : List AmOp) : AutoCommit :=
  { d with changes := d.changes ++ [⟨d.actor, aCount d.actor d.changes + 1, ops⟩] }

/-- The document's visible root state. -/
def AutoCommit.state (d : AutoCommit) : AmState :=
  evalChanges d.changes

/-- Modelled from the spec: `doc.get(ROOT, key)`. -/
def AutoCommit.get (d : AutoCommit) (key : String) : Option AmVal :=
  d.state.root.lookup key

/-- Union of change histories: integrate every change of `ys` not already
seen in `xs` (merge and change application are idempotent). -/
def mergeChanges (xs ys : List Change) : List Change :=
  xs ++ ys.filter (fun c => !(xs.contains c))

/-- Modelled from the spec: the error type of the external automerge crate
(`automerge::AutomergeError`); `loadFailed` stands for its deserialization
failures. -/
inductive AutomergeError : Type where
  | loadFailed
deriving DecidableEq, Repr

/-! ### Full-state serialization (`save`/`load`)

Modelled from the spec: `save()` is a complete snapshot of the document's
history; `load` parses it back.  The local actor id is not part of the
snapshot — a loaded document draws a fresh one (fixed to `0` here, standing
for an arbitrary fresh draw).  Snapshots start with the magic byte `133`,
so a snapshot is never empty. -/

/-- Encode a string: length, then the character codes. -/
def encString (s : String) : List Nat :=
  s.toList.length :: s.toList.map Char.toNat

/-- Encode an integer: sign tag, then magnitude. -/
def encInt : Int → List Nat
  | .ofNat n => [0, n]
  | .negSucc n => [1, n]

/-- Encode a scalar value. -/
def encScalar : AmScalar → List Nat
  | .str s => 0 :: encString s
  | .int i => 1 :: encInt i
  | .uint u => [2, u]
  | .boolean b => [3, if b then 1 else 0]
  | .null => [4]

/-- Encode one operation. -/
def encOp : AmOp → List Nat
  | .put k v => 0 :: (encString k ++ encScalar v)
  | .del k => 1 :: encString k
  | .putText k => 2 :: encString k
  | .splice k pos d ins => 3 :: (encString k ++ pos :: d :: encString ins)

/-- Encode one change: actor, sequence number, operation count, operations. -/
def encChange (c : Change) : List Nat :=
  c.actor :: c.seq :: c.ops.length :: (c.ops.map encOp).flatten

/-- Full-state snapshot of a history: magic byte, change count, changes. -/
def amSave (d : AutoCommit) : List Nat :=
  133 :: d.changes.length :: (d.changes.map encChange).flatten

/-- Read `n` characters. -/
def readChars : Nat → List Nat → Option (List Char × List Nat)
  | 0, bs => some ([], bs)
  | _ + 1, [] => none
  | n + 1, b :: bs =>
    match readChars n bs with
    | some (cs, r) => some (Char.ofNat b :: cs, r)
    | none => none

/-- Decode a string. -/
def readString : List Nat → Option (String × List Nat)
  | [] => none
  | n :: bs =>
    match readChars n bs with
    | some (cs, r) => some (String.mk cs, r)
    | none => none

/-- Decode a scalar value. -/
def readScalar : List Nat → Option (AmScalar × List Nat)
  | [] => none
  | t :: r =>
    if t = 0 then
      match readString r with
      | some (s, r') => some (.str s, r')
      | none => none
    else if t = 1 then
      match r with
      | sg :: n :: r' =>
        if sg = 0 then some (.int (Int.ofNat n), r')
        else if sg = 1 then some (.int (Int.negSucc n), r')
        else none
      | _ => none
    else if t = 2 then
      match r with
      | u :: r' => some (.uint u, r')
      | _ => none
    else if t = 3 then
      match r with
      | b :: r' => some (.boolean (b != 0), r')
      | _ => none
    else if t = 4 then some (.null, r)
    else none

/-- Decode one operation. -/
def readOp : List Nat → Option (AmOp × List Nat)
  | [] => none
  | t :: r =>
    if t = 0 then
      match readString r with
      | some (k, r₁) =>
        match readScalar r₁ with
        | some (v, r₂) => some (.put k v, r₂)
        | none => none
      | none => none
    else if t = 1 then
      match readString r with
      | some (k, r₁) => some (.del k, r₁)
      | none => none
    else if t = 2 then
      match readString r with
      | some (k, r₁) => some (.putText k, r₁)
      | none => none
    else if t = 3 then
      match readString r with
      | some (k, r₁) =>
        match r₁ with
        | pos :: d :: r₂ =>
          match readString r₂ with
          | some (ins, r₃) => some (.splice k pos d ins, r₃)
          | none => none
        | _ => none
      | none => none
    else none

/-- Decode `n` operations. -/
def readOps : Nat → List Nat → Option (List AmOp × List Nat)
  | 0, bs => some ([], bs)
  | n + 1, bs =>
    match readOp bs with
    | some (op, r) =>
      match readOps n r with
      | some (ops, r') => some (op :: ops, r')
      | none => none
    | none => none

/-- Decode one change. -/
def readChange : List Nat → Option (Change × List Nat)
  | actor :: seq :: n :: bs =>
    match readOps n bs with
    | some (ops, r) => some (⟨actor, seq, ops⟩, r)
    | none => none
  | _ => none

/-- Decode `n` changes. -/
def readChanges : Nat → List Nat → Option (List Change × List Nat)
  | 0, bs => some ([], bs)
  | n + 1, bs =>
    match readChange bs with
    | some (c, r) =>
      match readChanges n r with
      | some (cs, r') => some (c :: cs, r')
      | none => none
    | none => none

/-- Parse a full-state snapshot (`AutoCommit::load`); anything that is not
exactly a snapshot is rejected. -/
def amLoad (bs : List Nat) : Except AutomergeError AutoCommit :=
  match bs with
  | magic :: n :: rest =>
    if magic = 133 then
      match readChanges n rest with
      | some (cs, []) => .ok ⟨cs, 0⟩
      | _ => .error .loadFailed
    else .error .loadFailed
  | _ => .error .loadFailed

/-! ## `pimble-crdt` — `error.rs` and `document.rs` -/

/-- `CrdtError` (crates/pimble-crdt/src/error.rs).  `Automerge` wraps a
backend error via the derived `#[from]` conversion. -/
inductive CrdtError : Type where
  | Automerge (e : AutomergeError)
  | NotInitialized
  | InvalidFormat
  | KeyNotFound (key : String)
  | TypeMismatch (expected actual : String)
  | Serialization (msg : String)
deriving DecidableEq, Repr

/-- `CrdtDocument` (crates/pimble-crdt/src/document.rs): a wrapper around an
automerge `AutoCommit`. -/
structure CrdtDocument : Type where
  doc : AutoCommit
deriving DecidableEq, Repr

namespace CrdtDocument

/-- `CrdtDocument::new` (the fresh random actor id is a parameter). -/
def new (actor : Nat) : CrdtDocument := ⟨AutoCommit.new actor⟩

/-- `CrdtDocument::load`: empty input yields an empty document; otherwise
the bytes are parsed by the backend, whose error is wrapped by `#[from]`. -/
def load (bytes : List Nat) : Except CrdtError CrdtDocument :=
  if bytes.isEmpty then .ok ⟨AutoCommit.new 0⟩
  else
    match amLoad bytes with
    | .ok d => .ok ⟨d⟩
    | .error e => .error (.Automerge e)

/-- `CrdtDocument::save`. -/
def save (d : CrdtDocument) : List Nat := amSave d.doc

/-- `CrdtDocument::merge`: integrate the other document's history. -/
def merge (d other : CrdtDocument) : CrdtDocument :=
  ⟨{ d.doc with changes := mergeChanges d.doc.changes other.doc.changes }⟩

/-- `CrdtDocument::fork` (the fresh actor id of the copy is a parameter). -/
def fork (d : CrdtDocument) (newActor : Nat) : CrdtDocument :=
  ⟨{ d.doc with actor := newActor }⟩

/-- `CrdtDocument::set_string` (`put` at the root never fails). -/
def set_string (d : CrdtDocument) (key value : String) : CrdtDocument :=
  ⟨d.doc.addChange [.put key (.str value)]⟩

/-- `CrdtDocument::set_int`. -/
def set_int (d : CrdtDocument) (key : String) (value : Int) : CrdtDocument :=
  ⟨d.doc.addChange [.put key (.int value)]⟩

/-- `CrdtDocument::set_bool`. -/
def set_bool (d : CrdtDocument) (key : String) (value : Bool) : CrdtDocument :=
  ⟨d.doc.addChange [.put key (.boolean value)]⟩

/-- `CrdtDocument::delete`. -/
def delete (d : CrdtDocument) (key : String) : CrdtDocument :=
  ⟨d.doc.addChange [.del key]⟩

/-- `CrdtDocument::contains_key`. -/
def contains_key (d : CrdtDocument) (key : String) : Bool :=
  (d.doc.get key).isSome

/-- The `format!("\x7b:?\x7d", s)` rendering of a scalar used in the
`actual` field of `TypeMismatch`. -/
def scalarDebug : AmScalar → String
  | .str s => "Str(\"" ++ s ++ "\")"
  | .int i => "Int(" ++ toString i ++ ")"
  | .uint u => "Uint(" ++ toString u ++ ")"
  | .boolean b => "Boolean(" ++ (if b then "true" else "false") ++ ")"
  | .null => "Null"

/-- The `*u as i64` cast applied by `get_int` to a `Uint` payload
(u64-to-i64 wrapping conversion). -/
def uintToI64 (u : Nat) : Int :=
  if u < 2 ^ 63 then (u : Int) else (u : Int) - 2 ^ 64

/-- `CrdtDocument::get_string`. -/
def get_string (d : CrdtDocument) (key : String) : Except CrdtError (Option String) :=
  match d.doc.get key with
  | some (.scalar s) =>
    match s with
    | .str s' => .ok (some s')
    | _ => .error (.TypeMismatch "string" (scalarDebug s))
  | some (.text _) => .error (.TypeMismatch "string" "object")
  | none => .ok none

/-- `CrdtDocument::get_int`: accepts `Int` and also `Uint` (cast). -/
def get_int (d : CrdtDocument) (key : String) : Except CrdtError (Option Int) :=
  match d.doc.get key with
  | some (.scalar s) =>
    match s with
    | .int i => .ok (some i)
    | .uint u => .ok (some (uintToI64 u))
    | _ => .error (.TypeMismatch "integer" (scalarDebug s))
  | some (.text _) => .error (.TypeMismatch "integer" "object")
  | none => .ok none

/-- `CrdtDocument::get_bool`. -/
def get_bool (d : CrdtDocument) (key : String) : Except CrdtError (Option Bool) :=
  match d.doc.get key with
  | some (.scalar s) =>
    match s with
    | .boolean b => .ok (some b)
    | _ => .error (.TypeMismatch "boolean" (scalarDebug s))
  | some (.text _) => .error (.TypeMismatch "boolean" "object")
  | none => .ok none

end CrdtDocument

/-! ## `pimble-crdt` — `node_content.rs` -/

/-- `DocumentContent` (crates/pimble-crdt/src/node_content.rs). -/
structure DocumentContent : Type where
  doc : CrdtDocument
deriving DecidableEq, Repr

namespace DocumentContent

/-- `DocumentContent::TEXT_KEY`. -/
def TEXT_KEY : String := "text"

/-- `DocumentContent::get_text`: a text object or a plain string under the
text key is readable; a missing key reads as the empty string. -/
def get_text (c : DocumentContent) : Except CrdtError String :=
  match c.doc.doc.get TEXT_KEY with
  | some (.text t) => .ok t
  | some (.scalar s) =>
    match s with
    | .str s' => .ok s'
    | _ => .error (.TypeMismatch "text" (CrdtDocument.scalarDebug s))
  | none => .ok ""

/-- `DocumentContent::set_text`: delete any existing value under the text
key, then splice a fresh text sequence (one transaction, hence one change). -/
def set_text (c : DocumentContent) (s : String) : DocumentContent :=
  ⟨⟨c.doc.doc.addChange
      ((if (c.doc.doc.get TEXT_KEY).isSome then [.del TEXT_KEY] else []) ++
        [.putText TEXT_KEY, .splice TEXT_KEY 0 0 s])⟩⟩

/-- `DocumentContent::insert_text`. -/
def insert_text (c : DocumentContent) (pos : Nat) (s : String) : DocumentContent :=
  match c.doc.doc.get TEXT_KEY with
  | some (.text _) => ⟨⟨c.doc.doc.addChange [.splice TEXT_KEY pos 0 s]⟩⟩
  | some _ =>
    ⟨⟨c.doc.doc.addChange [.del TEXT_KEY, .putText TEXT_KEY, .splice TEXT_KEY pos 0 s]⟩⟩
  | none => ⟨⟨c.doc.doc.addChange [.putText TEXT_KEY, .splice TEXT_KEY pos 0 s]⟩⟩

/-- `DocumentContent::delete_text`: a no-op when there is no text object. -/
def delete_text (c : DocumentContent) (pos len : Nat) : DocumentContent :=
  match c.doc.doc.get TEXT_KEY with
  | some (.text _) => ⟨⟨c.doc.doc.addChange [.splice TEXT_KEY pos len ""]⟩⟩
  | _ => c

end DocumentContent

/-! ## Serialization round-trip -/

theorem readChars_enc (cs : List Char) (rest : List Nat) :
    readChars cs.length (cs.map Char.toNat ++ rest) = some (cs, rest) := by
  induction cs with
  | nil => rfl
  | cons c cs ih => simp [readChars, ih, Char.ofNat_toNat]

theorem readString_enc (s : String) (rest : List Nat) :
    readString (encString s ++ rest) = some (s, rest) := by
  have h := readChars_enc s.toList rest
  simp only [encString, List.cons_append, readString]
  rw [h]
  rfl

theorem readScalar_enc (v : AmScalar) (rest : List Nat) :
    readScalar (encScalar v ++ rest) = some (v, rest) := by
  cases v with
  | str s => simp [encScalar, readScalar, readString_enc]
  | int i => cases i <;> simp [encScalar, encInt, readScalar]
  | uint u => simp [encScalar, readScalar]
  | boolean b => cases b <;> simp [encScalar, readScalar]
  | null => simp [encScalar, readScalar]

theorem readOp_enc (op : AmOp) (rest : List Nat) :
    readOp (encOp op ++ rest) = some (op, rest) := by
  cases op with
  | put k v => simp [encOp, readOp, readString_enc, readScalar_enc]
  | del k => simp [encOp, readOp, readString_enc]
  | putText k => simp [encOp, readOp, readString_enc]
  | splice k pos d ins => simp [encOp, readOp, readString_enc]

theorem readOps_enc (ops : List AmOp) (rest : List Nat) :
    readOps ops.length ((ops.map encOp).flatten ++ rest) = some (ops, rest) := by
  induction ops with
  | nil => rfl
  | cons op ops ih => simp [readOps, readOp_enc, ih]

theorem readChange_enc (c : Change) (rest : List Nat) :
    readChange (encChange c ++ rest) = some (c, rest) := by
  simp [encChange, readChange, readOps_enc]

theorem readChanges_enc (cs : List Change) (rest : List Nat) :
    readChanges cs.length ((cs.map encChange).flatten ++ rest) = some (cs, rest) := by
  induction cs with
  | nil => rfl
  | cons c cs ih => simp [readChanges, readChange_enc, ih]

theorem amLoad_amSave (d : AutoCommit) :
    amLoad (amSave d) = .ok ⟨d.changes, 0⟩ := by
  have h := readChanges_enc d.changes []
  simp at h
  simp [amSave, amLoad, h]

/-! ## `pimble-core` — `node.rs` and `store.rs`

`NodeId` and `StoreId` wrap 128-bit UUIDs; they are modeled as naturals.
`DateTime<Utc>` clock readings are naturals; every operation that calls
`Utc::now()` takes the reading as an explicit `now` parameter. -/

/-- `NodeId` (crates/pimble-core/src/node.rs). -/
abbrev NodeId := Nat

/-- `StoreId` (crates/pimble-core/src/store.rs). -/
abbrev StoreId := Nat

/-- `NodeMetadata` (crates/pimble-core/src/node.rs).  `custom` maps keys to
arbitrary JSON values, modeled as their rendered text. -/
structure NodeMetadata : Type where
  title : String
  created_at : Nat
  modified_at : Nat
  tags : List String
  custom : List (String × String)
deriving DecidableEq, Repr

/-- `LinkTarget` (crates/pimble-core/src/node.rs). -/
inductive LinkTarget : Type where
  | node (id : NodeId)
  | deep (node_id : NodeId) (anchor : String)
  | external (url : String)
deriving DecidableEq, Repr

/-- `NodeLink` (crates/pimble-core/src/node.rs). -/
structure NodeLink : Type where
  target : LinkTarget
  link_type : String
  source_anchor : Option String
deriving DecidableEq, Repr

/-- `Node` (crates/pimble-core/src/node.rs). -/
structure Node : Type where
  id : NodeId
  parent_id : Option NodeId
  node_type : String
  metadata : NodeMetadata
  content : List Nat
  children : List NodeId
  links : List NodeLink
deriving DecidableEq, Repr

namespace Node

/-- `Node::new` (the fresh random id and the clock reading are parameters). -/
def new (node_type : String) (id : NodeId) (now : Nat) : Node :=
  { id := id
    parent_id := none
    node_type := node_type
    metadata := { title := "", created_at := now, modified_at := now,
                  tags := [], custom := [] }
    content := []
    children := []
    links := [] }

/-- `Node::folder`. -/
def folder (title : String) (id : NodeId) (now : Nat) : Node :=
  let n := new "folder" id now
  { n with metadata := { n.metadata with title := title } }

/-- `Node::document`. -/
def document (title : String) (id : NodeId) (now : Nat) : Node :=
  let n := new "document" id now
  { n with metadata := { n.metadata with title := title } }

/-- `Node::touch`. -/
def touch (n : Node) (now : Nat) : Node :=
  { n with metadata := { n.metadata with modified_at := now } }

/-- `Node::add_child`: append the id if not already present, then touch. -/
def add_child (n : Node) (child_id : NodeId) (now : Nat) : Node :=
  if n.children.contains child_id then n
  else ({ n with children := n.children ++ [child_id] }).touch now

/-- `Node::remove_child`: remove the first occurrence, if any, then touch. -/
def remove_child (n : Node) (child_id : NodeId) (now : Nat) : Node :=
  if n.children.contains child_id then
    ({ n with children := n.children.erase child_id }).touch now
  else n

end Node

/-- `StoreManifest` (crates/pimble-core/src/store.rs). -/
structure StoreManifest : Type where
  version : Nat
  id : StoreId
  name : String
  root_node_id : NodeId
  created_at : Nat
  modified_at : Nat
deriving DecidableEq, Repr

/-- `StoreManifest::new` (the fresh random store id and the clock reading
are parameters). -/
def StoreManifest.new (name : String) (root_node_id : NodeId) (sid : StoreId)
    (now : Nat) : StoreManifest :=
  { version := 1, id := sid, name := name, root_node_id := root_node_id,
    created_at := now, modified_at := now }

/-! ## `pimble-store` — `error.rs`, `local.rs` -/

/-- `StoreError` (crates/pimble-store/src/error.rs); `ioError` stands for
the wrapped `std::io::Error`. -/
inductive StoreError : Type where
  | StoreNotFound (id : StoreId)
  | NodeNotFound (id : NodeId)
  | StoreExists (path : String)
  | InvalidPath (msg : String)
  | NotOpen (id : StoreId)
  | ioError
  | Serialization (msg : String)
  | Crdt (e : CrdtError)
deriving DecidableEq, Repr

/-- The on-disk directory of one store: the manifest file, the
`nodes/<id>.json` metadata files and the `nodes/<id>.automerge` content
files, each keyed by node id. -/
structure StoreDir : Type where
  manifestFile : Option StoreManifest
  metaFiles : List (NodeId × Node)
  contentFiles : List (NodeId × List Nat)
deriving DecidableEq, Repr

/-- An empty store directory. -/
def StoreDir.empty : StoreDir := ⟨none, [], []⟩

/-- The filesystem: store directories keyed by path (a key being present
models the path existing on disk). -/
abbrev FS := List (String × StoreDir)

/-- Write oracle: which filesystem writes succeed during a flush.  A failed
write leaves the target file unchanged. -/
structure WOracle : Type where
  metaOk : NodeId → Bool
  contentOk : NodeId → Bool
  manifestOk : Bool

/-- The oracle under which every write succeeds. -/
def WOracle.allOk : WOracle := ⟨fun _ => true, fun _ => true, true⟩

/-- `LocalStore` (crates/pimble-store/src/local.rs): manifest, node cache,
dirty set. -/
structure LocalStore : Type where
  id : StoreId
  path : String
  manifest : StoreManifest
  nodes : List (NodeId × Node)
  dirty : List NodeId
deriving DecidableEq, Repr

namespace LocalStore

/-- `LocalStore::root_node_id`. -/
def root_node_id (s : LocalStore) : NodeId := s.manifest.root_node_id

/-- `LocalStore::save_node_to_disk`: write the metadata file with the
content stripped, then, if the content is non-empty, the content file.  On
failure the error carries the directory as written so far. -/
def save_node_to_disk (o : WOracle) (dir : StoreDir) (n : Node) :
    Except StoreDir StoreDir :=
  if o.metaOk n.id then
    let d1 : StoreDir := { dir with metaFiles := kvSet n.id { n with content := [] } dir.metaFiles }
    if n.content.isEmpty then .ok d1
    else if o.contentOk n.id then
      .ok { d1 with contentFiles := kvSet n.id n.content d1.contentFiles }
    else .error d1
  else .error dir

/-- The `for node_id in dirty` loop of `LocalStore::flush`: dirty ids with
no cached node are skipped; the first failing write aborts the loop. -/
def flushLoop (o : WOracle) (nodes : List (NodeId × Node)) :
    List NodeId → StoreDir → Except StoreDir StoreDir
  | [], dir => .ok dir
  | nid :: rest, dir =>
    match nodes.lookup nid with
    | none => flushLoop o nodes rest dir
    | some n =>
      match save_node_to_disk o dir n with
      | .error d' => .error d'
      | .ok d' => flushLoop o nodes rest d'

/-- The outcome of a flush: the error if any, and the store and directory
states afterwards (on error the in-memory store is unchanged). -/
structure FlushResult : Type where
  err : Option StoreError
  store : LocalStore
  dir : StoreDir
deriving Repr

/-- `LocalStore::flush`: persist every dirty node, clear the dirty set only
after the whole loop, then rewrite the manifest with a fresh
`modified_at`. -/
def flush (s : LocalStore) (dir : StoreDir) (o : WOracle) (now : Nat) : FlushResult :=
  match flushLoop o s.nodes s.dirty dir with
  | .error d' => ⟨some .ioError, s, d'⟩
  | .ok d' =>
    let s1 : LocalStore :=
      { s with dirty := [], manifest := { s.manifest with modified_at := now } }
    if o.manifestOk then ⟨none, s1, { d' with manifestFile := some s1.manifest }⟩
    else ⟨some .ioError, s1, d'⟩

/-- `LocalStore::create` (the fresh root node id, the fresh store id and
the two clock readings — creation time and flush time — are parameters). -/
def create (fs : FS) (path name : String) (rootId : NodeId) (sid : StoreId)
    (now nowF : Nat) (o : WOracle) : Except StoreError (LocalStore × FS) :=
  if (fs.lookup path).isSome then .error (.StoreExists path)
  else
    let root_node := Node.folder name rootId now
    let manifest := StoreManifest.new name rootId sid now
    if o.manifestOk then
      let dir0 : StoreDir := { StoreDir.empty with manifestFile := some manifest }
      let store : LocalStore :=
        { id := manifest.id, path := path, manifest := manifest,
          nodes := kvSet rootId root_node [], dirty := setInsert rootId [] }
      match store.flush dir0 o nowF with
      | ⟨some e, _, _⟩ => .error e
      | ⟨none, s', d'⟩ => .ok (s', kvSet path d' fs)
    else .error .ioError

/-- `LocalStore::open`: requires a manifest at the path; loads only the
manifest (the cache and dirty set start empty). -/
def openStore (fs : FS) (path : String) : Except StoreError LocalStore :=
  match fs.lookup path with
  | none => .error (.InvalidPath path)
  | some dir =>
    match dir.manifestFile with
    | none => .error (.InvalidPath path)
    | some manifest =>
      .ok { id := manifest.id, path := path, manifest := manifest,
            nodes := [], dirty := [] }

/-- `LocalStore::load_node`: read the metadata file, then overlay the
content file if present. -/
def load_node (dir : StoreDir) (nid : NodeId) : Except StoreError Node :=
  match dir.metaFiles.lookup nid with
  | none => .error (.NodeNotFound nid)
  | some n =>
    match dir.contentFiles.lookup nid with
    | some c => .ok { n with content := c }
    | none => .ok n

/-- `LocalStore::get_node`: serve from the cache, loading on a miss. -/
def get_node (s : LocalStore) (dir : StoreDir) (nid : NodeId) :
    Except StoreError (Node × LocalStore) :=
  match s.nodes.lookup nid with
  | some n => .ok (n, s)
  | none =>
    match load_node dir nid with
    | .error e => .error e
    | .ok n => .ok (n, { s with nodes := kvSet nid n s.nodes })

/-- `LocalStore::get_node_mut`: like `get_node`, and marks the id dirty.
The caller's mutation through the returned reference is modeled by the
caller writing the updated node back into the cache. -/
def get_node_mut (s : LocalStore) (dir : StoreDir) (nid : NodeId) :
    Except StoreError (Node × LocalStore) :=
  match s.nodes.lookup nid with
  | some n => .ok (n, { s with dirty := setInsert nid s.dirty })
  | none =>
    match load_node dir nid with
    | .error e => .error e
    | .ok n =>
      .ok (n, { s with nodes := kvSet nid n s.nodes, dirty := setInsert nid s.dirty })

/-- `LocalStore::create_node`. -/
def create_node (s : LocalStore) (dir : StoreDir) (node : Node)
    (parent_id : Option NodeId) (now : Nat) :
    Except StoreError (NodeId × LocalStore) :=
  let node_id := node.id
  let node := { node with parent_id := parent_id }
  match parent_id with
  | some pid =>
    match s.get_node_mut dir pid with
    | .error e => .error e
    | .ok (parent, s1) =>
      let s2 := { s1 with nodes := kvSet pid (parent.add_child node_id now) s1.nodes }
      .ok (node_id, { s2 with nodes := kvSet node_id node s2.nodes,
                              dirty := setInsert node_id s2.dirty })
  | none =>
    .ok (node_id, { s with nodes := kvSet node_id node s.nodes,
                           dirty := setInsert node_id s.dirty })

/-- `LocalStore::delete_node`: unlink from the parent, delete the metadata
file if it exists, and evict from the cache and dirty set.  (The content
file is not touched by the source.) -/
def delete_node (s : LocalStore) (dir : StoreDir) (nid : NodeId) (now : Nat) :
    Except StoreError (LocalStore × StoreDir) :=
  match s.get_node dir nid with
  | .error e => .error e
  | .ok (node, s1) =>
    let unlinked : Except StoreError LocalStore :=
      match node.parent_id with
      | some pid =>
        match s1.get_node_mut dir pid with
        | .error e => .error e
        | .ok (parent, s2) =>
          .ok { s2 with nodes := kvSet pid (parent.remove_child nid now) s2.nodes }
      | none => .ok s1
    match unlinked with
    | .error e => .error e
    | .ok s3 =>
      let dir' :=
        if (dir.metaFiles.lookup nid).isSome then
          { dir with metaFiles := kvErase nid dir.metaFiles }
        else dir
      .ok ({ s3 with nodes := kvErase nid s3.nodes, dirty := setRemove nid s3.dirty }, dir')

/-- `LocalStore::update_node_content`. -/
def update_node_content (s : LocalStore) (dir : StoreDir) (nid : NodeId)
    (content : List Nat) (now : Nat) : Except StoreError LocalStore :=
  match s.get_node_mut dir nid with
  | .error e => .error e
  | .ok (n, s1) =>
    .ok { s1 with nodes := kvSet nid (({ n with content := content }).touch now) s1.nodes }

/-- `LocalStore::get_node_document`. -/
def get_node_document (s : LocalStore) (dir : StoreDir) (nid : NodeId) :
    Except StoreError (CrdtDocument × LocalStore) :=
  match s.get_node dir nid with
  | .error e => .error e
  | .ok (n, s1) =>
    match CrdtDocument.load n.content with
    | .ok doc => .ok (doc, s1)
    | .error e => .error (.Crdt e)

/-- `LocalStore::save_node_document`. -/
def save_node_document (s : LocalStore) (dir : StoreDir) (nid : NodeId)
    (doc : CrdtDocument) (now : Nat) : Except StoreError LocalStore :=
  s.update_node_content dir nid doc.save now

/-- The child-resolution loop of `LocalStore::get_children`. -/
def childLoop (dir : StoreDir) :
    List NodeId → LocalStore → List Node → Except StoreError (List Node × LocalStore)
  | [], s, acc => .ok (acc.reverse, s)
  | cid :: rest, s, acc =>
    match s.get_node dir cid with
    | .error e => .error e
    | .ok (c, s') => childLoop dir rest s' (c :: acc)

/-- `LocalStore::get_children`. -/
def get_children (s : LocalStore) (dir : StoreDir) (nid : NodeId) :
    Except StoreError (List Node × LocalStore) :=
  match s.get_node dir nid with
  | .error e => .error e
  | .ok (node, s1) => childLoop dir node.children s1 []

end LocalStore

/-! ## `pimble-store` — `manager.rs` -/

/-- `StoreManager` (crates/pimble-store/src/manager.rs): the open local
stores keyed by store id. -/
structure StoreManager : Type where
  local_stores : List (StoreId × LocalStore)
deriving Repr

namespace StoreManager

/-- `StoreManager::new`. -/
def new : StoreManager := ⟨[]⟩

/-- The directory a store's file operations act on. -/
def dirOf (fs : FS) (st : LocalStore) : StoreDir :=
  (fs.lookup st.path).getD StoreDir.empty

/-- `StoreManager::create_local_store`. -/
def create_local_store (m : StoreManager) (fs : FS) (path name : String)
    (rootId : NodeId) (sid : StoreId) (now nowF : Nat) (o : WOracle) :
    Except StoreError (StoreId × StoreManager × FS) :=
  match LocalStore.create fs path name rootId sid now nowF o with
  | .error e => .error e
  | .ok (st, fs') => .ok (st.id, ⟨kvSet st.id st m.local_stores⟩, fs')

/-- `StoreManager::open_local_store`: loads the manifest from disk, and if
the resulting store id is already registered, keeps the existing entry. -/
def open_local_store (m : StoreManager) (fs : FS) (path : String) :
    Except StoreError (StoreId × StoreManager) :=
  match LocalStore.openStore fs path with
  | .error e => .error e
  | .ok st =>
    if (m.local_stores.lookup st.id).isSome then .ok (st.id, m)
    else .ok (st.id, ⟨kvSet st.id st m.local_stores⟩)

/-- `StoreManager::close_store`: a silent no-op for an unregistered id;
otherwise the entry is removed and the store flushed. -/
def close_store (m : StoreManager) (fs : FS) (sid : StoreId) (o : WOracle)
    (now : Nat) : Option StoreError × StoreManager × FS :=
  match m.local_stores.lookup sid with
  | none => (none, m, fs)
  | some st =>
    let r := st.flush (dirOf fs st) o now
    (r.err, ⟨kvErase sid m.local_stores⟩, kvSet st.path r.dir fs)

/-- `StoreManager::is_open`. -/
def is_open (m : StoreManager) (sid : StoreId) : Bool :=
  (m.local_stores.lookup sid).isSome

/-- `StoreManager::list_stores`. -/
def list_stores (m : StoreManager) : List StoreId :=
  m.local_stores.map Prod.fst

/-- `StoreManager::get_node`. -/
def get_node (m : StoreManager) (fs : FS) (sid : StoreId) (nid : NodeId) :
    Except StoreError (Node × StoreManager) :=
  match m.local_stores.lookup sid with
  | none => .error (.NotOpen sid)
  | some st =>
    match st.get_node (dirOf fs st) nid with
    | .error e => .error e
    | .ok (n, st') => .ok (n, ⟨kvSet sid st' m.local_stores⟩)

/-- `StoreManager::create_node`. -/
def create_node (m : StoreManager) (fs : FS) (sid : StoreId) (node : Node)
    (parent_id : Option NodeId) (now : Nat) :
    Except StoreError (NodeId × StoreManager) :=
  match m.local_stores.lookup sid with
  | none => .error (.NotOpen sid)
  | some st =>
    match st.create_node (dirOf fs st) node parent_id now with
    | .error e => .error e
    | .ok (nid, st') => .ok (nid, ⟨kvSet sid st' m.local_stores⟩)

/-- `StoreManager::delete_node`. -/
def delete_node (m : StoreManager) (fs : FS) (sid : StoreId) (nid : NodeId)
    (now : Nat) : Except StoreError (StoreManager × FS) :=
  match m.local_stores.lookup sid with
  | none => .error (.NotOpen sid)
  | some st =>
    match st.delete_node (dirOf fs st) nid now with
    | .error e => .error e
    | .ok (st', dir') =>
      .ok (⟨kvSet sid st' m.local_stores⟩, kvSet st.path dir' fs)

/-- `StoreManager::get_node_document`. -/
def get_node_document (m : StoreManager) (fs : FS) (sid : StoreId)
    (nid : NodeId) : Except StoreError (CrdtDocument × StoreManager) :=
  match m.local_stores.lookup sid with
  | none => .error (.NotOpen sid)
  | some st =>
    match st.get_node_document (dirOf fs st) nid with
    | .error e => .error e
    | .ok (doc, st') => .ok (doc, ⟨kvSet sid st' m.local_stores⟩)

/-- `StoreManager::save_node_document`. -/
def save_node_document (m : StoreManager) (fs : FS) (sid : StoreId)
    (nid : NodeId) (doc : CrdtDocument) (now : Nat) :
    Except StoreError StoreManager :=
  match m.local_stores.lookup sid with
  | none => .error (.NotOpen sid)
  | some st =>
    match st.save_node_document (dirOf fs st) nid doc now with
    | .error e => .error e
    | .ok st' => .ok ⟨kvSet sid st' m.local_stores⟩

/-- `StoreManager::get_children`. -/
def get_children (m : StoreManager) (fs : FS) (sid : StoreId) (nid : NodeId) :
    Except StoreError (List Node × StoreManager) :=
  match m.local_stores.lookup sid with
  | none => .error (.NotOpen sid)
  | some st =>
    match st.get_children (dirOf fs st) nid with
    | .error e => .error e
    | .ok (cs, st') => .ok (cs, ⟨kvSet sid st' m.local_stores⟩)

/-- `StoreManager::flush` (one store, addressed by id). -/
def flush (m : StoreManager) (fs : FS) (sid : StoreId) (o : WOracle)
    (now : Nat) : Option StoreError × StoreManager × FS :=
  match m.local_stores.lookup sid with
  | none => (some (.NotOpen sid), m, fs)
  | some st =>
    let r := st.flush (dirOf fs st) o now
    (r.err, ⟨kvSet sid r.store m.local_stores⟩, kvSet st.path r.dir fs)

/-- The loop of `StoreManager::flush_all`: flush every registered store,
stopping at the first error. -/
def flushAllLoop (o : WOracle) (now : Nat) :
    List (StoreId × LocalStore) → FS →
    Option StoreError × List (StoreId × LocalStore) × FS
  | [], fs => (none, [], fs)
  | (sid, st) :: rest, fs =>
    let r := st.flush (dirOf fs st) o now
    match r.err with
    | some e => (some e, (sid, r.store) :: rest, kvSet st.path r.dir fs)
    | none =>
      let (e, rest', fs') := flushAllLoop o now rest (kvSet st.path r.dir fs)
      (e, (sid, r.store) :: rest', fs')

/-- `StoreManager::flush_all`: iterates the registered stores only — it is
not addressed by a store id. -/
def flush_all (m : StoreManager) (fs : FS) (o : WOracle) (now : Nat) :
    Option StoreError × StoreManager × FS :=
  let (e, stores, fs') := flushAllLoop o now m.local_stores fs
  (e, ⟨stores⟩, fs')

end StoreManager

/-! ## Claim C4 — save/load round-trip -/

/-- C4: for every `CrdtDocument` `d`, loading the bytes produced by
`d.save()` succeeds, and the loaded document agrees with `d` on
`get_text()` and on every top-level scalar key read through `get_string`,
`get_int` and `get_bool`. -/
theorem save_load_roundtrip (d : CrdtDocument) :
    ∃ d', CrdtDocument.load (CrdtDocument.save d) = .ok d' ∧
      DocumentContent.get_text ⟨d'⟩ = DocumentContent.get_text ⟨d⟩ ∧
      ∀ k : String, d'.get_string k = d.get_string k ∧
        d'.get_int k = d.get_int k ∧ d'.get_bool k = d.get_bool k := by
  refine ⟨⟨⟨d.doc.changes, 0⟩⟩, ?_, rfl, fun k => ⟨rfl, rfl, rfl⟩⟩
  have hne : (CrdtDocument.save d).isEmpty = false := by
    simp [CrdtDocument.save, amSave]
  have h := amLoad_amSave d.doc
  simp [CrdtDocument.load, hne, CrdtDocument.save, h]
  intro hc
  simp [amSave] at hc

/-! ## Claim C5 — load on empty and malformed input -/

/-- C5 counterexample: on the malformed non-empty input `[0]`, `load` fails
with the wrapped backend error `CrdtError::Automerge(..)`, which is a
different variant from `InvalidFormat`. -/
theorem load_malformed_cex :
    CrdtDocument.load [0] = .error (.Automerge .loadFailed) ∧
      CrdtError.Automerge .loadFailed ≠ CrdtError.InvalidFormat := by
  exact ⟨rfl, by decide⟩

/-- C5 amended: `load` of an empty byte slice returns `Ok` with an empty
document; `load` of any malformed non-empty byte slice returns an error,
and that error is always the wrapped backend error `Automerge(..)` — the
`InvalidFormat` variant is never produced. -/
theorem load_amended :
    (∀ bytes : List Nat, bytes.isEmpty →
      CrdtDocument.load bytes = .ok ⟨AutoCommit.new 0⟩) ∧
    (∀ bytes : List Nat, ∀ e, CrdtDocument.load bytes = .error e →
      ∃ ae, e = .Automerge ae) := by
  constructor
  · intro bytes h
    cases bytes with
    | nil => rfl
    | cons b bs => simp [List.isEmpty] at h
  · intro bytes e h
    by_cases hb : bytes.isEmpty
    · simp [CrdtDocument.load, hb] at h
    · cases hl : amLoad bytes with
      | ok d => simp [CrdtDocument.load, hb, hl] at h
      | error ae =>
        simp [CrdtDocument.load, hb, hl] at h
        exact ⟨ae, h.symm⟩

/-- Witness for C5 amended, at the empty input and at the malformed input
`[0]`. -/
theorem load_amended_witness :
    CrdtDocument.load [] = .ok ⟨AutoCommit.new 0⟩ ∧
      ∃ ae, CrdtError.Automerge AutomergeError.loadFailed = .Automerge ae :=
  ⟨load_amended.1 [] (by decide),
   load_amended.2 [0] (.Automerge .loadFailed) (by rfl)⟩

/-! ## Claim C9 — typed getters -/

/-- C9 counterexample: a top-level key holding a `Uint` value — an
underlying type distinct from `Int` — is read by `get_int` as `Ok(Some 5)`;
the value is silently coerced instead of failing with `TypeMismatch`. -/
theorem get_int_uint_cex :
    (CrdtDocument.mk ⟨[⟨0, 1, [.put "k" (.uint 5)]⟩], 0⟩).doc.get "k"
        = some (.scalar (.uint 5)) ∧
      (CrdtDocument.mk ⟨[⟨0, 1, [.put "k" (.uint 5)]⟩], 0⟩).get_int "k"
        = .ok (some 5) := by
  exact ⟨rfl, rfl⟩

/-- C9 amended: a typed getter applied to a key of a different underlying
type fails with `TypeMismatch`, with the single exception that `get_int`
also accepts `Uint` values, silently converting them with a wrapping
u64-to-i64 cast. -/
theorem typed_getters_amended (d : CrdtDocument) (k : String) :
    (∀ s, d.doc.get k = some (.scalar s) → (∀ s', s ≠ .str s') →
      ∃ ac, d.get_string k = .error (.TypeMismatch "string" ac)) ∧
    (∀ s, d.doc.get k = some (.scalar s) → (∀ b, s ≠ .boolean b) →
      ∃ ac, d.get_bool k = .error (.TypeMismatch "boolean" ac)) ∧
    (∀ s, d.doc.get k = some (.scalar s) → (∀ i, s ≠ .int i) → (∀ u, s ≠ .uint u) →
      ∃ ac, d.get_int k = .error (.TypeMismatch "integer" ac)) ∧
    (∀ u, d.doc.get k = some (.scalar (.uint u)) →
      d.get_int k = .ok (some (CrdtDocument.uintToI64 u))) ∧
    (∀ t, d.doc.get k = some (.text t) →
      (∃ ac, d.get_string k = .error (.TypeMismatch "string" ac)) ∧
      (∃ ac, d.get_int k = .error (.TypeMismatch "integer" ac)) ∧
      (∃ ac, d.get_bool k = .error (.TypeMismatch "boolean" ac))) := by
  refine ⟨?_, ?_, ?_, ?_, ?_⟩
  · intro s h hs
    cases s with
    | str s' => exact absurd rfl (hs s')
    | int i => exact ⟨CrdtDocument.scalarDebug (.int i), by simp [CrdtDocument.get_string, h]⟩
    | uint u => exact ⟨CrdtDocument.scalarDebug (.uint u), by simp [CrdtDocument.get_string, h]⟩
    | boolean b => exact ⟨CrdtDocument.scalarDebug (.boolean b), by simp [CrdtDocument.get_string, h]⟩
    | null => exact ⟨CrdtDocument.scalarDebug .null, by simp [CrdtDocument.get_string, h]⟩
  · intro s h hs
    cases s with
    | boolean b => exact absurd rfl (hs b)
    | str s' => exact ⟨CrdtDocument.scalarDebug (.str s'), by simp [CrdtDocument.get_bool, h]⟩
    | int i => exact ⟨CrdtDocument.scalarDebug (.int i), by simp [CrdtDocument.get_bool, h]⟩
    | uint u => exact ⟨CrdtDocument.scalarDebug (.uint u), by simp [CrdtDocument.get_bool, h]⟩
    | null => exact ⟨CrdtDocument.scalarDebug .null, by simp [CrdtDocument.get_bool, h]⟩
  · intro s h hi hu
    cases s with
    | int i => exact absurd rfl (hi i)
    | uint u => exact absurd rfl (hu u)
    | str s' => exact ⟨CrdtDocument.scalarDebug (.str s'), by simp [CrdtDocument.get_int, h]⟩
    | boolean b => exact ⟨CrdtDocument.scalarDebug (.boolean b), by simp [CrdtDocument.get_int, h]⟩
    | null => exact ⟨CrdtDocument.scalarDebug .null, by simp [CrdtDocument.get_int, h]⟩
  · intro u h
    simp [CrdtDocument.get_int, h]
  · intro t h
    exact ⟨⟨"object", by simp [CrdtDocument.get_string, h]⟩,
           ⟨"object", by simp [CrdtDocument.get_int, h]⟩,
           ⟨"object", by simp [CrdtDocument.get_bool, h]⟩⟩

/-- Witness for C9 amended: a boolean-valued key makes `get_int` fail with
`TypeMismatch`, and a `Uint`-valued key is coerced. -/
theorem typed_getters_amended_witness :
    (∃ ac, (CrdtDocument.mk ⟨[⟨0, 1, [.put "w" (.boolean true)]⟩], 0⟩).get_int "w"
        = .error (.TypeMismatch "integer" ac)) ∧
      (CrdtDocument.mk ⟨[⟨0, 1, [.put "w" (.uint 7)]⟩], 0⟩).get_int "w"
        = .ok (some (CrdtDocument.uintToI64 7)) :=
  ⟨(typed_getters_amended (CrdtDocument.mk ⟨[⟨0, 1, [.put "w" (.boolean true)]⟩], 0⟩)
      "w").2.2.1 (.boolean true) rfl (fun i h => by cases h) (fun u h => by cases h),
   (typed_getters_amended (CrdtDocument.mk ⟨[⟨0, 1, [.put "w" (.uint 7)]⟩], 0⟩)
      "w").2.2.2.1 7 rfl⟩

/-! ## Claim C3 — merge order independence -/

/-- The edits expressible through the wrapper API (the text operations go
through `DocumentContent`). -/
inductive Edit : Type where
  | setString (key value : String)
  | setInt (key : String) (v : Int)
  | setBool (key : String) (b : Bool)
  | del (key : String)
  | setText (s : String)
  | insertText (pos : Nat) (s : String)
  | deleteText (pos len : Nat)
deriving DecidableEq, Repr

/-- Apply one API edit to a document. -/
def applyEdit (d : CrdtDocument) : Edit → CrdtDocument
  | .setString k v => d.set_string k v
  | .setInt k v => d.set_int k v
  | .setBool k b => d.set_bool k b
  | .del k => d.delete k
  | .setText s => (DocumentContent.set_text ⟨d⟩ s).doc
  | .insertText pos s => (DocumentContent.insert_text ⟨d⟩ pos s).doc
  | .deleteText pos len => (DocumentContent.delete_text ⟨d⟩ pos len).doc

/-- Apply a sequence of API edits. -/
def applyEdits (d : CrdtDocument) (es : List Edit) : CrdtDocument :=
  es.foldl applyEdit d

/-- The top-level key an edit addresses. -/
def Edit.keyOf : Edit → String
  | .setString k _ => k
  | .setInt k _ => k
  | .setBool k _ => k
  | .del k => k
  | .setText _ => DocumentContent.TEXT_KEY
  | .insertText _ _ => DocumentContent.TEXT_KEY
  | .deleteText _ _ => DocumentContent.TEXT_KEY

/-- Two edit batches are disjoint when they address disjoint key sets. -/
def DisjointEdits (es1 es2 : List Edit) : Prop :=
  ∀ e1 ∈ es1, ∀ e2 ∈ es2, e1.keyOf ≠ e2.keyOf

/-- The top-level keys of a document. -/
def rootKeys (d : CrdtDocument) : List String :=
  d.doc.state.root.map Prod.fst

/-- One API edit keeps the actor and appends at most one change, stamped
with the local actor and the next per-actor sequence number. -/
theorem applyEdit_changes (d : CrdtDocument) (e : Edit) :
    (applyEdit d e).doc.actor = d.doc.actor ∧
    ((applyEdit d e).doc.changes = d.doc.changes ∨
      ∃ ops, (applyEdit d e).doc.changes =
        d.doc.changes ++ [⟨d.doc.actor, aCount d.doc.actor d.doc.changes + 1, ops⟩]) := by
  cases e with
  | setString k v => exact ⟨rfl, .inr ⟨_, rfl⟩⟩
  | setInt k v => exact ⟨rfl, .inr ⟨_, rfl⟩⟩
  | setBool k b => exact ⟨rfl, .inr ⟨_, rfl⟩⟩
  | del k => exact ⟨rfl, .inr ⟨_, rfl⟩⟩
  | setText s => exact ⟨rfl, .inr ⟨_, rfl⟩⟩
  | insertText pos s =>
    have hred : applyEdit d (.insertText pos s) =
        (DocumentContent.insert_text ⟨d⟩ pos s).doc := rfl
    rw [hred]
    unfold DocumentContent.insert_text
    split <;> exact ⟨rfl, .inr ⟨_, rfl⟩⟩
  | deleteText pos len =>
    have hred : applyEdit d (.deleteText pos len) =
        (DocumentContent.delete_text ⟨d⟩ pos len).doc := rfl
    rw [hred]
    unfold DocumentContent.delete_text
    split
    · exact ⟨rfl, .inr ⟨_, rfl⟩⟩
    · exact ⟨rfl, .inl rfl⟩

theorem aCount_append (a : Nat) (xs ys : List Change) :
    aCount a (xs ++ ys) = aCount a xs + aCount a ys := by
  simp [aCount, List.filter_append]

/-- Applying an edit batch appends a block of changes, all stamped with the
document's actor and with sequence numbers past the existing history. -/
theorem applyEdits_block (es : List Edit) : ∀ (d : CrdtDocument),
    ∃ blk, (applyEdits d es).doc.changes = d.doc.changes ++ blk ∧
      (applyEdits d es).doc.actor = d.doc.actor ∧
      ∀ c ∈ blk, c.actor = d.doc.actor ∧
        aCount d.doc.actor d.doc.changes < c.seq := by
  induction es with
  | nil => intro d; exact ⟨[], by simp [applyEdits], rfl, by simp⟩
  | cons e es ih =>
    intro d
    obtain ⟨ha, hc⟩ := applyEdit_changes d e
    obtain ⟨blk, h1, h2, h3⟩ := ih (applyEdit d e)
    have hfold : applyEdits d (e :: es) = applyEdits (applyEdit d e) es := rfl
    rcases hc with hc | ⟨ops, hc⟩
    · refine ⟨blk, ?_, ?_, ?_⟩
      · rw [hfold, h1, hc]
      · rw [hfold, h2, ha]
      · intro c hcin
        obtain ⟨hca, hcs⟩ := h3 c hcin
        rw [ha] at hca
        rw [ha, hc] at hcs
        exact ⟨hca, hcs⟩
    · refine ⟨⟨d.doc.actor, aCount d.doc.actor d.doc.changes + 1, ops⟩ :: blk,
        ?_, ?_, ?_⟩
      · rw [hfold, h1, hc, List.append_assoc]
        rfl
      · rw [hfold, h2, ha]
      · intro c hcin
        rcases List.mem_cons.mp hcin with hceq | hcmem
        · subst hceq
          exact ⟨rfl, Nat.lt_succ_self _⟩
        · obtain ⟨hca, hcs⟩ := h3 c hcmem
          rw [ha] at hca
          rw [ha, hc] at hcs
          refine ⟨hca, ?_⟩
          rw [aCount_append] at hcs
          have h1c : aCount d.doc.actor
              [⟨d.doc.actor, aCount d.doc.actor d.doc.changes + 1, ops⟩] = 1 := by
            simp [aCount]
          rw [h1c] at hcs
          omega

/-- Merging in a foreign history whose new block is entirely unseen
appends exactly that block. -/
theorem mergeChanges_of_disjoint (C0 E1 E2 : List Change)
    (h2 : ∀ c ∈ E2, c ∉ C0 ++ E1) :
    mergeChanges (C0 ++ E1) (C0 ++ E2) = C0 ++ E1 ++ E2 := by
  unfold mergeChanges
  have hC0 : C0.filter (fun c => !((C0 ++ E1).contains c)) = [] := by
    rw [List.filter_eq_nil_iff]
    intro c hc
    have hmem : c ∈ C0 ++ E1 := List.mem_append_left _ hc
    simp [hmem]
  have hE2 : E2.filter (fun c => !((C0 ++ E1).contains c)) = E2 := by
    rw [List.filter_eq_self]
    intro c hc
    have hmem := h2 c hc
    simp [hmem]
  rw [List.filter_append, hC0, hE2]
  simp

/-- Canonical replay order does not distinguish the two union orders when
the two new blocks belong to different actors. -/
theorem canonical_tri (C0 E1 E2 : List Change) (b : Nat)
    (hE2 : ∀ c ∈ E2, c.actor = b)
    (hC0 : ∀ c ∈ C0, c.actor ≠ b)
    (hE1 : ∀ c ∈ E1, c.actor ≠ b) :
    canonical (C0 ++ E1 ++ E2) = canonical (C0 ++ E2 ++ E1) := by
  have hperm : (C0 ++ E1 ++ E2).Perm (C0 ++ E2 ++ E1) := by
    rw [List.append_assoc, List.append_assoc]
    exact List.Perm.append_left C0 List.perm_append_comm
  have hactors : List.insertionSort (· ≤ ·) (actorsOf (C0 ++ E1 ++ E2)) =
      List.insertionSort (· ≤ ·) (actorsOf (C0 ++ E2 ++ E1)) := by
    refine List.eq_of_perm_of_sorted ?_
      (List.sorted_insertionSort _ _) (List.sorted_insertionSort _ _)
    exact (List.perm_insertionSort _ _).trans
      (((hperm.map Change.actor).dedup).trans (List.perm_insertionSort _ _).symm)
  unfold canonical
  rw [hactors]
  apply congrArg
  funext a
  by_cases hab : a = b
  · subst hab
    have f1 : C0.filter (fun c => c.actor == a) = [] := by
      rw [List.filter_eq_nil_iff]
      intro c hc
      simpa using hC0 c hc
    have f2 : E1.filter (fun c => c.actor == a) = [] := by
      rw [List.filter_eq_nil_iff]
      intro c hc
      simpa using hE1 c hc
    simp [List.filter_append, f1, f2]
  · have f3 : E2.filter (fun c => c.actor == a) = [] := by
      rw [List.filter_eq_nil_iff]
      intro c hc
      rw [hE2 c hc]
      simp
      exact fun hh => hab hh.symm
    simp [List.filter_append, f3]

/-- `get_text` only depends on the materialized state. -/
theorem get_text_of_state {dA dB : CrdtDocument}
    (hh : dA.doc.state = dB.doc.state) :
    DocumentContent.get_text ⟨dA⟩ = DocumentContent.get_text ⟨dB⟩ := by
  unfold DocumentContent.get_text AutoCommit.get
  rw [hh]

/-- `rootKeys` only depends on the materialized state. -/
theorem rootKeys_of_state {dA dB : CrdtDocument}
    (hh : dA.doc.state = dB.doc.state) : rootKeys dA = rootKeys dB := by
  unfold rootKeys
  rw [hh]

/-- C3: fork a document `d0` into a copy with a fresh actor, apply disjoint
edit batches to the two copies, and merge in both orders: the resulting
text content and the resulting top-level key lists are identical in both
orders. -/
theorem merge_commutes (d0 : CrdtDocument) (b : Nat) (es1 es2 : List Edit)
    (hwf : ∀ c ∈ d0.doc.changes, c.seq ≤ aCount c.actor d0.doc.changes)
    (hba : b ≠ d0.doc.actor)
    (hbC : ∀ c ∈ d0.doc.changes, c.actor ≠ b)
    (hdisj : DisjointEdits es1 es2) :
    DocumentContent.get_text
        ⟨(applyEdits d0 es1).merge (applyEdits (d0.fork b) es2)⟩ =
      DocumentContent.get_text
        ⟨(applyEdits (d0.fork b) es2).merge (applyEdits d0 es1)⟩ ∧
    rootKeys ((applyEdits d0 es1).merge (applyEdits (d0.fork b) es2)) =
      rootKeys ((applyEdits (d0.fork b) es2).merge (applyEdits d0 es1)) := by
  obtain ⟨E1, h1c, h1a, h1p⟩ := applyEdits_block es1 d0
  obtain ⟨E2, h2c, h2a, h2p⟩ := applyEdits_block es2 (d0.fork b)
  have hE1a : ∀ c ∈ E1, c.actor = d0.doc.actor := fun c hc => (h1p c hc).1
  have hE2a : ∀ c ∈ E2, c.actor = b := fun c hc => (h2p c hc).1
  have hE1b : ∀ c ∈ E1, c.actor ≠ b := by
    intro c hc
    rw [hE1a c hc]
    exact fun hh => hba hh.symm
  have hdisj2 : ∀ c ∈ E2, c ∉ d0.doc.changes ++ E1 := by
    intro c hc hmem
    have hcb := hE2a c hc
    rcases List.mem_append.mp hmem with hm | hm
    · exact hbC c hm hcb
    · exact hE1b c hm hcb
  have hdisj1 : ∀ c ∈ E1, c ∉ d0.doc.changes ++ E2 := by
    intro c hc hmem
    rcases List.mem_append.mp hmem with hm | hm
    · have hle := hwf c hm
      have hgt := (h1p c hc).2
      rw [(h1p c hc).1] at hle
      omega
    · exact hE1b c hc (hE2a c hm)
  have hm1 : mergeChanges (applyEdits d0 es1).doc.changes
      (applyEdits (d0.fork b) es2).doc.changes
      = d0.doc.changes ++ E1 ++ E2 := by
    rw [h1c, h2c]
    exact mergeChanges_of_disjoint _ _ _ hdisj2
  have hm2 : mergeChanges (applyEdits (d0.fork b) es2).doc.changes
      (applyEdits d0 es1).doc.changes
      = d0.doc.changes ++ E2 ++ E1 := by
    rw [h1c, h2c]
    exact mergeChanges_of_disjoint _ _ _ hdisj1
  have heval : evalChanges (mergeChanges (applyEdits d0 es1).doc.changes
        (applyEdits (d0.fork b) es2).doc.changes)
      = evalChanges (mergeChanges (applyEdits (d0.fork b) es2).doc.changes
        (applyEdits d0 es1).doc.changes) := by
    rw [hm1, hm2]
    unfold evalChanges
    rw [canonical_tri _ _ _ b hE2a hbC hE1b]
  have hstate : ((applyEdits d0 es1).merge (applyEdits (d0.fork b) es2)).doc.state
      = ((applyEdits (d0.fork b) es2).merge (applyEdits d0 es1)).doc.state := heval
  exact ⟨get_text_of_state hstate, rootKeys_of_state hstate⟩

/-- Witness for C3: the empty document, forked to actor 1, with one string
edit on one side and one disjoint integer edit on the other. -/
theorem merge_commutes_witness :
    DocumentContent.get_text
        ⟨(applyEdits (CrdtDocument.new 0) [.setString "x" "1"]).merge
          (applyEdits ((CrdtDocument.new 0).fork 1) [.setInt "y" 2])⟩ =
      DocumentContent.get_text
        ⟨(applyEdits ((CrdtDocument.new 0).fork 1) [.setInt "y" 2]).merge
          (applyEdits (CrdtDocument.new 0) [.setString "x" "1"])⟩ ∧
    rootKeys ((applyEdits (CrdtDocument.new 0) [.setString "x" "1"]).merge
        (applyEdits ((CrdtDocument.new 0).fork 1) [.setInt "y" 2])) =
      rootKeys ((applyEdits ((CrdtDocument.new 0).fork 1) [.setInt "y" 2]).merge
        (applyEdits (CrdtDocument.new 0) [.setString "x" "1"])) :=
  merge_commutes (CrdtDocument.new 0) 1 [.setString "x" "1"] [.setInt "y" 2]
    (by intro c hc; cases hc)
    (by decide)
    (by intro c hc; cases hc)
    (by unfold DisjointEdits; decide)

/-! ## Claim C6 — create then open -/

/-- C6: creating a store at a fresh path and then opening that path yields
a store with the same `StoreId` and the same `root_node_id`. -/
theorem create_then_open (fs : FS) (path name : String) (rootId : NodeId)
    (sid : StoreId) (now nowF : Nat) (h : fs.lookup path = none) :
    ∃ s fs', LocalStore.create fs path name rootId sid now nowF .allOk = .ok (s, fs') ∧
      ∃ s₂, LocalStore.openStore fs' path = .ok s₂ ∧
        s₂.id = s.id ∧ s₂.root_node_id = s.root_node_id ∧
        s.id = sid ∧ s.root_node_id = rootId := by
  refine ⟨{ id := sid, path := path,
            manifest := { StoreManifest.new name rootId sid now with modified_at := nowF },
            nodes := kvSet rootId (Node.folder name rootId now) [], dirty := [] },
          kvSet path
            { manifestFile := some { StoreManifest.new name rootId sid now with modified_at := nowF },
              metaFiles := kvSet rootId { Node.folder name rootId now with content := [] } [],
              contentFiles := [] } fs,
          ?_, ?_⟩
  · simp [LocalStore.create, h, WOracle.allOk, LocalStore.flush, LocalStore.flushLoop,
          LocalStore.save_node_to_disk, setInsert, StoreDir.empty, StoreManifest.new,
          Node.folder, Node.new, kvSet, List.lookup]
  · refine ⟨{ id := sid, path := path,
              manifest := { StoreManifest.new name rootId sid now with modified_at := nowF },
              nodes := [], dirty := [] }, ?_, rfl, rfl, rfl, rfl⟩
    rw [LocalStore.openStore, kvSet_lookup_self]
    rfl

/-- Witness for C6 at path "p". -/
theorem create_then_open_witness :
    ∃ s fs', LocalStore.create [] "p" "N" 1 2 0 1 .allOk = .ok (s, fs') ∧
      ∃ s₂, LocalStore.openStore fs' "p" = .ok s₂ ∧
        s₂.id = s.id ∧ s₂.root_node_id = s.root_node_id ∧
        s.id = 2 ∧ s.root_node_id = 1 :=
  create_then_open [] "p" "N" 1 2 0 1 rfl

/-! ## Claim C8 — open_local_store idempotence -/

/-- C8: when opening a path whose store id is already registered,
`open_local_store` returns `Ok` with that id and leaves the manager's
registry completely unchanged — no replacement, no duplicate entry, and the
registered store's state is untouched. -/
theorem open_idempotent (m : StoreManager) (fs : FS) (path : String)
    (st₀ stReg : LocalStore)
    (h1 : LocalStore.openStore fs path = .ok st₀)
    (h2 : m.local_stores.lookup st₀.id = some stReg) :
    StoreManager.open_local_store m fs path = .ok (st₀.id, m) := by
  simp [StoreManager.open_local_store, h1, h2]

/-- Witness for C8 with one registered store. -/
theorem open_idempotent_witness :
    StoreManager.open_local_store
        ⟨[(2, ⟨2, "p", ⟨1, 2, "N", 1, 0, 0⟩, [], []⟩)]⟩
        [("p", ⟨some ⟨1, 2, "N", 1, 0, 0⟩, [], []⟩)] "p" =
      .ok (2, ⟨[(2, ⟨2, "p", ⟨1, 2, "N", 1, 0, 0⟩, [], []⟩)]⟩) :=
  open_idempotent ⟨[(2, ⟨2, "p", ⟨1, 2, "N", 1, 0, 0⟩, [], []⟩)]⟩
    [("p", ⟨some ⟨1, 2, "N", 1, 0, 0⟩, [], []⟩)] "p"
    ⟨2, "p", ⟨1, 2, "N", 1, 0, 0⟩, [], []⟩
    ⟨2, "p", ⟨1, 2, "N", 1, 0, 0⟩, [], []⟩ rfl rfl

/-! ## Claim C10 — close_store -/

/-- C10: `close_store` on an unregistered id is a silent no-op returning no
error (not `NotOpen`); on a registered id it removes the entry from the
registry, flushes that store, and writes the flushed directory back. -/
theorem close_store_behavior (m : StoreManager) (fs : FS) (sid : StoreId)
    (o : WOracle) (now : Nat) :
    (m.local_stores.lookup sid = none →
      StoreManager.close_store m fs sid o now = (none, m, fs)) ∧
    (∀ st, m.local_stores.lookup sid = some st →
      (StoreManager.close_store m fs sid o now).2.1.local_stores.lookup sid = none ∧
      (StoreManager.close_store m fs sid o now).1 =
        (st.flush (StoreManager.dirOf fs st) o now).err ∧
      (StoreManager.close_store m fs sid o now).2.2.lookup st.path =
        some (st.flush (StoreManager.dirOf fs st) o now).dir) := by
  constructor
  · intro h
    simp [StoreManager.close_store, h]
  · intro st h
    refine ⟨?_, ?_, ?_⟩
    · simp [StoreManager.close_store, h, kvErase_lookup_self]
    · simp [StoreManager.close_store, h]
    · simp [StoreManager.close_store, h, kvSet_lookup_self]

/-- Witness for C10: the no-op branch on an empty manager, and the flush
branch on a manager holding one clean store. -/
theorem close_store_behavior_witness :
    StoreManager.close_store ⟨[]⟩ [] 5 .allOk 0 = (none, ⟨[]⟩, []) ∧
      (StoreManager.close_store
          ⟨[(2, ⟨2, "p", ⟨1, 2, "N", 1, 0, 0⟩, [], []⟩)]⟩
          [("p", ⟨some ⟨1, 2, "N", 1, 0, 0⟩, [], []⟩)] 2 .allOk 9).2.1.local_stores.lookup 2
        = none :=
  ⟨(close_store_behavior ⟨[]⟩ [] 5 .allOk 0).1 rfl,
   ((close_store_behavior ⟨[(2, ⟨2, "p", ⟨1, 2, "N", 1, 0, 0⟩, [], []⟩)]⟩
      [("p", ⟨some ⟨1, 2, "N", 1, 0, 0⟩, [], []⟩)] 2 .allOk 9).2
      ⟨2, "p", ⟨1, 2, "N", 1, 0, 0⟩, [], []⟩ rfl).1⟩

/-! ## Claim C7 — NotOpen translation -/

/-- A `LocalStore::flush` reports either success or an I/O error. -/
theorem flush_err_io (s : LocalStore) (dir : StoreDir) (o : WOracle) (now : Nat) :
    (s.flush dir o now).err = none ∨ (s.flush dir o now).err = some .ioError := by
  unfold LocalStore.flush
  cases hE : LocalStore.flushLoop o s.nodes s.dirty dir with
  | error d' => right; rfl
  | ok d' =>
    by_cases hm : o.manifestOk
    · left; simp [hm]
    · right; simp [hm]

/-- Every error of the `flush_all` loop comes out of some store's flush,
hence is an I/O error — never `NotOpen`. -/
theorem flushAllLoop_err_io (o : WOracle) (now : Nat) :
    ∀ (l : List (StoreId × LocalStore)) (fs : FS) (e : StoreError),
      (StoreManager.flushAllLoop o now l fs).1 = some e → e = .ioError := by
  intro l
  induction l with
  | nil => intro fs e h; simp [StoreManager.flushAllLoop] at h
  | cons hd tl ih =>
    intro fs e h
    obtain ⟨sid, st⟩ := hd
    rcases flush_err_io st (StoreManager.dirOf fs st) o now with h0 | h0
    · rw [StoreManager.flushAllLoop] at h
      rw [h0] at h
      simp at h
      exact ih _ e h
    · rw [StoreManager.flushAllLoop] at h
      rw [h0] at h
      simp at h
      rw [← h]

/-- C7 counterexample: `flush_all` takes no store id and, with store id `0`
unregistered, it succeeds with no error rather than failing with
`NotOpen(0)`. -/
theorem flush_all_not_open_cex :
    StoreManager.new.local_stores.lookup 0 = none ∧
      (StoreManager.flush_all StoreManager.new [] .allOk 0).1 = none := by
  exact ⟨rfl, rfl⟩

/-- C7 amended: each pass-through operation addressed to an unregistered
store id (`get_node`, `create_node`, `delete_node`, `get_node_document`,
`save_node_document`, `get_children`, `flush`) fails with `NotOpen(sid)`;
`flush_all` is not addressed by a store id and never produces `NotOpen` —
any error it reports is an I/O error from flushing a registered store. -/
theorem not_open_amended (m : StoreManager) (fs : FS) (sid : StoreId)
    (nid : NodeId) (node : Node) (pid : Option NodeId) (doc : CrdtDocument)
    (o : WOracle) (now : Nat)
    (h : m.local_stores.lookup sid = none) :
    StoreManager.get_node m fs sid nid = .error (.NotOpen sid) ∧
    StoreManager.create_node m fs sid node pid now = .error (.NotOpen sid) ∧
    StoreManager.delete_node m fs sid nid now = .error (.NotOpen sid) ∧
    StoreManager.get_node_document m fs sid nid = .error (.NotOpen sid) ∧
    StoreManager.save_node_document m fs sid nid doc now = .error (.NotOpen sid) ∧
    StoreManager.get_children m fs sid nid = .error (.NotOpen sid) ∧
    (StoreManager.flush m fs sid o now).1 = some (.NotOpen sid) ∧
    (∀ e, (StoreManager.flush_all m fs o now).1 = some e → e = .ioError) := by
  refine ⟨?_, ?_, ?_, ?_, ?_, ?_, ?_, ?_⟩
  · simp [StoreManager.get_node, h]
  · simp [StoreManager.create_node, h]
  · simp [StoreManager.delete_node, h]
  · simp [StoreManager.get_node_document, h]
  · simp [StoreManager.save_node_document, h]
  · simp [StoreManager.get_children, h]
  · simp [StoreManager.flush, h]
  · intro e he
    have : (StoreManager.flushAllLoop o now m.local_stores fs).1 = some e := by
      simpa [StoreManager.flush_all] using he
    exact flushAllLoop_err_io o now m.local_stores fs e this

/-! ## Claim C1 — partial flush failure -/

/-- A successful association-list lookup finds an actual entry. -/
theorem lookup_mem {κ α : Type} [BEq κ] [LawfulBEq κ] {m : List (κ × α)}
    {k : κ} {v : α} (h : m.lookup k = some v) : (k, v) ∈ m := by
  induction m with
  | nil => simp [List.lookup] at h
  | cons hd tl ih =>
    obtain ⟨a, b⟩ := hd
    rw [List.lookup] at h
    cases hbeq : (k == a) with
    | true =>
      rw [hbeq] at h
      simp at h
      subst h
      have hka : k = a := by simpa using hbeq
      subst hka
      exact List.mem_cons_self _ _
    | false =>
      rw [hbeq] at h
      exact List.mem_cons_of_mem _ (ih h)

/-- Cache well-formedness: every cached entry stores a node carrying the id
it is keyed by (true of every state the store API produces). -/
def NodesWF (nodes : List (NodeId × Node)) : Prop :=
  ∀ p ∈ nodes, p.2.id = p.1

theorem NodesWF.id_of_lookup {nodes : List (NodeId × Node)} (hwf : NodesWF nodes)
    {nid : NodeId} {n : Node} (h : nodes.lookup nid = some n) : n.id = nid :=
  hwf (nid, n) (lookup_mem h)

/-- Node `nid` of the cache `nodes` is persisted in `dir`: its metadata
file holds its cached value with the content stripped. -/
def PersistedIn (nodes : List (NodeId × Node)) (dir : StoreDir) (nid : NodeId) : Prop :=
  ∀ n, nodes.lookup nid = some n →
    dir.metaFiles.lookup nid = some { n with content := [] }

/-- A successful `save_node_to_disk` wrote the node's metadata file. -/
theorem save_ok_meta {o : WOracle} {dir d₂ : StoreDir} {m : Node}
    (hs : LocalStore.save_node_to_disk o dir m = .ok d₂) :
    d₂.metaFiles = kvSet m.id { m with content := [] } dir.metaFiles := by
  unfold LocalStore.save_node_to_disk at hs
  by_cases hm : o.metaOk m.id
  · by_cases hc : m.content.isEmpty
    · simp [hm, hc] at hs
      rw [← hs]
    · by_cases hco : o.contentOk m.id
      · simp [hm, hc, hco] at hs
        rw [← hs]
      · simp [hm, hc, hco] at hs
  · simp [hm] at hs

/-- Whatever a `save_node_to_disk` attempt did, the metadata map either is
unchanged or has only the node's own file rewritten. -/
theorem save_meta_shape {o : WOracle} {dir d₂ : StoreDir} {m : Node}
    (hs : LocalStore.save_node_to_disk o dir m = .ok d₂ ∨
          LocalStore.save_node_to_disk o dir m = .error d₂) :
    d₂.metaFiles = dir.metaFiles ∨
      d₂.metaFiles = kvSet m.id { m with content := [] } dir.metaFiles := by
  rcases hs with hs | hs
  · exact .inr (save_ok_meta hs)
  · unfold LocalStore.save_node_to_disk at hs
    by_cases hm : o.metaOk m.id
    · by_cases hc : m.content.isEmpty
      · simp [hm, hc] at hs
      · by_cases hco : o.contentOk m.id
        · simp [hm, hc, hco] at hs
        · simp [hm, hc, hco] at hs
          right
          rw [← hs]
    · simp [hm] at hs
      left
      rw [← hs]

/-- Persistence of any node survives a further save attempt of a cached
node. -/
theorem persisted_step {nodes : List (NodeId × Node)} (hwf : NodesWF nodes)
    {o : WOracle} {dir d₂ : StoreDir} {j : NodeId} {m : Node}
    (hj : nodes.lookup j = some m)
    (hs : LocalStore.save_node_to_disk o dir m = .ok d₂ ∨
          LocalStore.save_node_to_disk o dir m = .error d₂)
    {nid : NodeId} (hp : PersistedIn nodes dir nid) :
    PersistedIn nodes d₂ nid := by
  have hid : m.id = j := hwf.id_of_lookup hj
  rcases save_meta_shape hs with hmf | hmf
  · intro n hn
    rw [hmf]
    exact hp n hn
  · intro n hn
    by_cases hnj : nid = j
    · subst hnj
      have hmn : m = n := by
        rw [hn] at hj
        injection hj with h
        exact h.symm
      subst hmn
      rw [hmf, ← hid]
      exact kvSet_lookup_self _ _ _
    · have hne : nid ≠ m.id := fun hh => hnj (hh.trans hid)
      rw [hmf, kvSet_lookup_ne _ _ hne]
      exact hp n hn

/-- A successful save of a cached node persists it. -/
theorem persisted_new {nodes : List (NodeId × Node)} (hwf : NodesWF nodes)
    {o : WOracle} {dir d₂ : StoreDir} {j : NodeId} {m : Node}
    (hj : nodes.lookup j = some m)
    (hs : LocalStore.save_node_to_disk o dir m = .ok d₂) :
    PersistedIn nodes d₂ j := by
  have hid : m.id = j := hwf.id_of_lookup hj
  intro n hn
  have hmn : m = n := by
    rw [hn] at hj
    injection hj with h
    exact h.symm
  subst hmn
  rw [save_ok_meta hs, ← hid]
  exact kvSet_lookup_self _ _ _

theorem flushLoop_cons_none {o : WOracle} {nodes : List (NodeId × Node)}
    {nid₀ : NodeId} {rest : List NodeId} {dir : StoreDir}
    (hl : nodes.lookup nid₀ = none) :
    LocalStore.flushLoop o nodes (nid₀ :: rest) dir =
      LocalStore.flushLoop o nodes rest dir := by
  rw [LocalStore.flushLoop, hl]

theorem flushLoop_cons_err {o : WOracle} {nodes : List (NodeId × Node)}
    {nid₀ : NodeId} {rest : List NodeId} {dir d₂ : StoreDir} {n : Node}
    (hl : nodes.lookup nid₀ = some n)
    (hs : LocalStore.save_node_to_disk o dir n = .error d₂) :
    LocalStore.flushLoop o nodes (nid₀ :: rest) dir = .error d₂ := by
  simp [LocalStore.flushLoop, hl, hs]

theorem flushLoop_cons_ok {o : WOracle} {nodes : List (NodeId × Node)}
    {nid₀ : NodeId} {rest : List NodeId} {dir d₂ : StoreDir} {n : Node}
    (hl : nodes.lookup nid₀ = some n)
    (hs : LocalStore.save_node_to_disk o dir n = .ok d₂) :
    LocalStore.flushLoop o nodes (nid₀ :: rest) dir =
      LocalStore.flushLoop o nodes rest d₂ := by
  simp [LocalStore.flushLoop, hl, hs]

/-- The flush loop never un-persists a node. -/
theorem flushLoop_preserves {o : WOracle} {nodes : List (NodeId × Node)}
    (hwf : NodesWF nodes) :
    ∀ (l : List NodeId) (dir d' : StoreDir),
      (LocalStore.flushLoop o nodes l dir = .ok d' ∨
       LocalStore.flushLoop o nodes l dir = .error d') →
      ∀ nid, PersistedIn nodes dir nid → PersistedIn nodes d' nid := by
  intro l
  induction l with
  | nil =>
    intro dir d' h nid hp
    rcases h with h | h
    · simp [LocalStore.flushLoop] at h
      rwa [← h]
    · simp [LocalStore.flushLoop] at h
  | cons nid₀ rest ih =>
    intro dir d' h nid hp
    cases hl : nodes.lookup nid₀ with
    | none =>
      rw [flushLoop_cons_none hl] at h
      exact ih dir d' h nid hp
    | some n =>
      cases hs : LocalStore.save_node_to_disk o dir n with
      | error d₂ =>
        rw [flushLoop_cons_err hl hs] at h
        have hd : d' = d₂ := by
          rcases h with h | h
          · simp at h
          · simpa using h.symm
        subst hd
        exact persisted_step hwf hl (.inr hs) hp
      | ok d₂ =>
        rw [flushLoop_cons_ok hl hs] at h
        exact ih d₂ d' h nid (persisted_step hwf hl (.inl hs) hp)

/-- On a fully successful flush loop, every dirty id with a cached node is
persisted in the resulting directory. -/
theorem flushLoop_ok_persists {o : WOracle} {nodes : List (NodeId × Node)}
    (hwf : NodesWF nodes) :
    ∀ (l : List NodeId) (dir d' : StoreDir),
      LocalStore.flushLoop o nodes l dir = .ok d' →
      ∀ nid ∈ l, PersistedIn nodes d' nid := by
  intro l
  induction l with
  | nil => intro dir d' h nid hin; cases hin
  | cons nid₀ rest ih =>
    intro dir d' h nid hin
    cases hl : nodes.lookup nid₀ with
    | none =>
      rw [flushLoop_cons_none hl] at h
      rcases List.mem_cons.mp hin with heq | hmem
      · subst heq
        intro n hn
        rw [hn] at hl
        cases hl
      · exact ih dir d' h nid hmem
    | some n =>
      cases hs : LocalStore.save_node_to_disk o dir n with
      | error d₂ => rw [flushLoop_cons_err hl hs] at h; simp at h
      | ok d₂ =>
        rw [flushLoop_cons_ok hl hs] at h
        rcases List.mem_cons.mp hin with heq | hmem
        · subst heq
          exact flushLoop_preserves hwf rest d₂ d' (.inl h) nid
            (persisted_new hwf hl hs)
        · exact ih d₂ d' h nid hmem

/-- A failing flush loop fails at one id; every id before it is persisted
in the directory the loop leaves behind. -/
theorem flushLoop_error_split {o : WOracle} {nodes : List (NodeId × Node)}
    (hwf : NodesWF nodes) :
    ∀ (l : List NodeId) (dir d' : StoreDir),
      LocalStore.flushLoop o nodes l dir = .error d' →
      ∃ pre fid post, l = pre ++ fid :: post ∧
        ∀ nid ∈ pre, PersistedIn nodes d' nid := by
  intro l
  induction l with
  | nil => intro dir d' h; simp [LocalStore.flushLoop] at h
  | cons nid₀ rest ih =>
    intro dir d' h
    cases hl : nodes.lookup nid₀ with
    | none =>
      rw [flushLoop_cons_none hl] at h
      obtain ⟨pre, fid, post, heq, hpre⟩ := ih dir d' h
      refine ⟨nid₀ :: pre, fid, post, by rw [heq]; rfl, ?_⟩
      intro nid hin
      rcases List.mem_cons.mp hin with heq' | hmem
      · subst heq'
        intro n hn
        rw [hn] at hl
        cases hl
      · exact hpre nid hmem
    | some n =>
      cases hs : LocalStore.save_node_to_disk o dir n with
      | error d₂ =>
        rw [flushLoop_cons_err hl hs] at h
        have hd : d' = d₂ := by simpa using h.symm
        subst hd
        exact ⟨[], nid₀, rest, rfl, by simp⟩
      | ok d₂ =>
        rw [flushLoop_cons_ok hl hs] at h
        obtain ⟨pre, fid, post, heq, hpre⟩ := ih d₂ d' h
        refine ⟨nid₀ :: pre, fid, post, by rw [heq]; rfl, ?_⟩
        intro nid hin
        rcases List.mem_cons.mp hin with heq' | hmem
        · subst heq'
          exact flushLoop_preserves hwf rest d₂ d' (.inr h) nid
            (persisted_new hwf hl hs)
        · exact hpre nid hmem

/-- C1 counterexample: with two dirty nodes and the write of node 2
failing, the failed flush leaves node 1 persisted on disk but node 1 is
still in the dirty set — its dirty flag was not cleared, contradicting the
claim. -/
theorem flush_partial_cex :
    (LocalStore.flush
        ⟨7, "p", StoreManifest.new "s" 1 7 0,
         [(1, Node.folder "a" 1 0), (2, Node.folder "b" 2 0)], [1, 2]⟩
        StoreDir.empty ⟨fun nid => nid != 2, fun _ => true, true⟩ 5).err
      = some .ioError ∧
    (LocalStore.flush
        ⟨7, "p", StoreManifest.new "s" 1 7 0,
         [(1, Node.folder "a" 1 0), (2, Node.folder "b" 2 0)], [1, 2]⟩
        StoreDir.empty ⟨fun nid => nid != 2, fun _ => true, true⟩ 5).dir.metaFiles.lookup 1
      = some { Node.folder "a" 1 0 with content := [] } ∧
    (LocalStore.flush
        ⟨7, "p", StoreManifest.new "s" 1 7 0,
         [(1, Node.folder "a" 1 0), (2, Node.folder "b" 2 0)], [1, 2]⟩
        StoreDir.empty ⟨fun nid => nid != 2, fun _ => true, true⟩ 5).store.dirty
      = [1, 2] :=
  ⟨rfl, rfl, rfl⟩

/-- C1 amended: if a flush fails while persisting one dirty node, every
node persisted before the failure remains persisted on disk, but no dirty
flag has been cleared — the store, including its entire dirty set, is left
exactly as it was, so the failing node and every other dirty node (written
or not) remain dirty for a future retry; only when the per-node loop
succeeds is the whole dirty set cleared, at once. -/
theorem flush_partial_amended (s : LocalStore) (dir : StoreDir) (o : WOracle)
    (now : Nat) (hwf : NodesWF s.nodes) :
    (∀ d', LocalStore.flushLoop o s.nodes s.dirty dir = .error d' →
      s.flush dir o now = ⟨some .ioError, s, d'⟩ ∧
      ∃ pre fid post, s.dirty = pre ++ fid :: post ∧
        ∀ nid ∈ pre, PersistedIn s.nodes d' nid) ∧
    (∀ d', LocalStore.flushLoop o s.nodes s.dirty dir = .ok d' →
      (s.flush dir o now).store.dirty = [] ∧
      ∀ nid ∈ s.dirty, PersistedIn s.nodes (s.flush dir o now).dir nid) := by
  constructor
  · intro d' h
    constructor
    · unfold LocalStore.flush
      rw [h]
    · exact flushLoop_error_split hwf s.dirty dir d' h
  · intro d' h
    have hper := flushLoop_ok_persists hwf s.dirty dir d' h
    constructor
    · unfold LocalStore.flush
      rw [h]
      by_cases hm : o.manifestOk <;> simp [hm]
    · intro nid hin
      unfold LocalStore.flush
      rw [h]
      by_cases hm : o.manifestOk <;> simp [hm] <;> exact hper nid hin

/-- Witness for C1 amended on the two-node store whose second write
fails. -/
theorem flush_partial_amended_witness :
    ∃ d', LocalStore.flushLoop ⟨fun nid => nid != 2, fun _ => true, true⟩
        [(1, Node.folder "a" 1 0), (2, Node.folder "b" 2 0)] [1, 2] StoreDir.empty
        = .error d' ∧
      LocalStore.flush
          ⟨7, "p", StoreManifest.new "s" 1 7 0,
           [(1, Node.folder "a" 1 0), (2, Node.folder "b" 2 0)], [1, 2]⟩
          StoreDir.empty ⟨fun nid => nid != 2, fun _ => true, true⟩ 5 =
        ⟨some .ioError,
         ⟨7, "p", StoreManifest.new "s" 1 7 0,
          [(1, Node.folder "a" 1 0), (2, Node.folder "b" 2 0)], [1, 2]⟩, d'⟩ ∧
      ∃ pre fid post, ([1, 2] : List NodeId) = pre ++ fid :: post ∧
        ∀ nid ∈ pre,
          PersistedIn [(1, Node.folder "a" 1 0), (2, Node.folder "b" 2 0)] d' nid := by
  refine ⟨_, rfl, ?_⟩
  exact (flush_partial_amended
    ⟨7, "p", StoreManifest.new "s" 1 7 0,
     [(1, Node.folder "a" 1 0), (2, Node.folder "b" 2 0)], [1, 2]⟩
    StoreDir.empty ⟨fun nid => nid != 2, fun _ => true, true⟩ 5
    (by unfold NodesWF; decide)).1 _ rfl

/-! ## Claim C2 — delete_node -/

theorem not_mem_setRemove {α : Type} [BEq α] [LawfulBEq α] (x : α) (s : List α) :
    x ∉ setRemove x s := by
  intro h
  rcases List.mem_filter.mp h with ⟨_, hx⟩
  simp at hx

theorem mem_setRemove_of_ne {α : Type} [BEq α] [LawfulBEq α] {x y : α}
    {s : List α} (h : y ≠ x) (hy : y ∈ s) : y ∈ setRemove x s := by
  refine List.mem_filter.mpr ⟨hy, ?_⟩
  simp [h]

theorem mem_setInsert_self {α : Type} [BEq α] [LawfulBEq α] (x : α) (s : List α) :
    x ∈ setInsert x s := by
  unfold setInsert
  split
  · next hc => simpa using hc
  · next hc => exact List.mem_append.mpr (.inr (by simp))

/-- `get_node_mut` always marks the requested id dirty and otherwise only
extends the cache. -/
theorem get_node_mut_dirty {s : LocalStore} {dir : StoreDir} {nid : NodeId}
    {n : Node} {s₂ : LocalStore}
    (h : s.get_node_mut dir nid = .ok (n, s₂)) :
    s₂.dirty = setInsert nid s.dirty := by
  unfold LocalStore.get_node_mut at h
  cases hl : s.nodes.lookup nid with
  | some n' =>
    rw [hl] at h
    simp at h
    rw [← h.2]
  | none =>
    rw [hl] at h
    cases hload : LocalStore.load_node dir nid with
    | error e => rw [hload] at h; simp at h
    | ok n' =>
      rw [hload] at h
      simp at h
      rw [← h.2]

/-- C2 counterexample: deleting a node whose content file is present
succeeds, yet the content (`.automerge`) file is left on disk — only the
metadata (`.json`) file is removed. -/
theorem delete_node_cex :
    ∃ s' dir',
      LocalStore.delete_node ⟨7, "p", StoreManifest.new "r" 1 7 0, [], []⟩
        ⟨some (StoreManifest.new "r" 1 7 0),
         [(1, { Node.folder "r" 1 0 with children := [2] }),
          (2, { Node.document "c" 2 0 with parent_id := some 1 })],
         [(2, [9])]⟩ 2 3 = .ok (s', dir') ∧
      dir'.contentFiles.lookup 2 = some [9] :=
  ⟨_, _, rfl, rfl⟩

/-- C2 amended: after a successful `delete_node(id)`, the id is removed
from its parent's children (the parent is cached, updated and marked
dirty), the node's metadata file is deleted, and the id is evicted from the
cache and the dirty set — but the node's content file is NOT deleted: the
on-disk content map is completely unchanged. -/
theorem delete_node_amended (s : LocalStore) (dir : StoreDir) (nid : NodeId)
    (now : Nat) (s' : LocalStore) (dir' : StoreDir)
    (h : s.delete_node dir nid now = .ok (s', dir')) :
    s'.nodes.lookup nid = none ∧
    nid ∉ s'.dirty ∧
    dir'.metaFiles.lookup nid = none ∧
    dir'.contentFiles = dir.contentFiles ∧
    (∀ node s1, s.get_node dir nid = .ok (node, s1) →
      ∀ pid, node.parent_id = some pid → pid ≠ nid →
        ∃ parent s2, s1.get_node_mut dir pid = .ok (parent, s2) ∧
          s'.nodes.lookup pid = some (parent.remove_child nid now) ∧
          pid ∈ s'.dirty ∧
          (parent.children.Nodup → nid ∉ (parent.remove_child nid now).children)) := by
  unfold LocalStore.delete_node at h
  cases hg : s.get_node dir nid with
  | error e => rw [hg] at h; simp at h
  | ok res =>
    obtain ⟨node, s1⟩ := res
    rw [hg] at h
    simp only at h
    cases hpid : node.parent_id with
    | none =>
      rw [hpid] at h
      simp only at h
      have hs' : s' =
          ⟨s1.id, s1.path, s1.manifest, kvErase nid s1.nodes, setRemove nid s1.dirty⟩ := by
        injection h with h1
        injection h1 with h1 h2
        exact h1.symm
      have hdir' : dir' =
          (if (dir.metaFiles.lookup nid).isSome then
            ⟨dir.manifestFile, kvErase nid dir.metaFiles, dir.contentFiles⟩ else dir) := by
        injection h with h1
        injection h1 with h1 h2
        exact h2.symm
      subst hs'
      subst hdir'
      refine ⟨kvErase_lookup_self _ _, not_mem_setRemove _ _, ?_, ?_, ?_⟩
      · by_cases hex : (dir.metaFiles.lookup nid).isSome
        · simp only [hex, if_true]
          exact kvErase_lookup_self _ _
        · simp only [hex, if_false]
          cases hoo : List.lookup nid dir.metaFiles with
          | none => simpa using hoo
          | some v => rw [hoo] at hex; simp at hex
      · by_cases hex : (dir.metaFiles.lookup nid).isSome <;> simp [hex]
      · intro node₁ s1₁ hg₁ pid hpid₁ hne
        injection hg₁ with hg₁
        injection hg₁ with hga hgb
        rw [← hga] at hpid₁
        rw [hpid] at hpid₁
        cases hpid₁
    | some pid₀ =>
      rw [hpid] at h
      simp only at h
      cases hgm : s1.get_node_mut dir pid₀ with
      | error e => rw [hgm] at h; simp at h
      | ok res₂ =>
        obtain ⟨parent, s2⟩ := res₂
        rw [hgm] at h
        simp only at h
        have hs' : s' =
            ⟨s2.id, s2.path, s2.manifest,
             kvErase nid (kvSet pid₀ (parent.remove_child nid now) s2.nodes),
             setRemove nid s2.dirty⟩ := by
          injection h with h1
          injection h1 with h1 h2
          exact h1.symm
        have hdir' : dir' =
            (if (dir.metaFiles.lookup nid).isSome then
              ⟨dir.manifestFile, kvErase nid dir.metaFiles, dir.contentFiles⟩ else dir) := by
          injection h with h1
          injection h1 with h1 h2
          exact h2.symm
        subst hs'
        subst hdir'
        refine ⟨kvErase_lookup_self _ _, not_mem_setRemove _ _, ?_, ?_, ?_⟩
        · by_cases hex : (dir.metaFiles.lookup nid).isSome
          · simp only [hex, if_true]
            exact kvErase_lookup_self _ _
          · simp only [hex, if_false]
            cases hoo : List.lookup nid dir.metaFiles with
            | none => simpa using hoo
            | some v => rw [hoo] at hex; simp at hex
        · by_cases hex : (dir.metaFiles.lookup nid).isSome <;> simp [hex]
        · intro node₁ s1₁ hg₁ pid hpid₁ hne
          injection hg₁ with hg₁
          injection hg₁ with hga hgb
          rw [← hga] at hpid₁
          rw [hpid] at hpid₁
          injection hpid₁ with hpp
          subst hpp
          rw [← hgb]
          refine ⟨parent, s2, hgm, ?_, ?_, ?_⟩
          · rw [kvErase_lookup_ne _ hne, kvSet_lookup_self]
          · exact mem_setRemove_of_ne hne
              (get_node_mut_dirty hgm ▸ mem_setInsert_self pid₀ s1.dirty)
          · intro hnodup
            unfold Node.remove_child
            by_cases hcon : parent.children.contains nid
            · simp only [hcon, if_true]
              exact hnodup.not_mem_erase
            · simp only [hcon, if_false]
              simpa using hcon

/-- Witness for C2 amended: the concrete deletion of node 2 (content file
present) out of a two-node store. -/
theorem delete_node_amended_witness :
    ∃ s' dir', LocalStore.delete_node ⟨7, "p", StoreManifest.new "r" 1 7 0, [], []⟩
        ⟨some (StoreManifest.new "r" 1 7 0),
         [(1, { Node.folder "r" 1 0 with children := [2] }),
          (2, { Node.document "c" 2 0 with parent_id := some 1 })],
         [(2, [9])]⟩ 2 3 = .ok (s', dir') ∧
      s'.nodes.lookup 2 = none ∧ 2 ∉ s'.dirty ∧
      dir'.metaFiles.lookup 2 = none ∧
      dir'.contentFiles = [(2, [9])] := by
  refine ⟨_, _, rfl, ?_⟩
  have h := delete_node_amended
    ⟨7, "p", StoreManifest.new "r" 1 7 0, [], []⟩
    ⟨some (StoreManifest.new "r" 1 7 0),
     [(1, { Node.folder "r" 1 0 with children := [2] }),
      (2, { Node.document "c" 2 0 with parent_id := some 1 })],
     [(2, [9])]⟩ 2 3 _ _ rfl
  exact ⟨h.1, h.2.1, h.2.2.1, h.2.2.2.1⟩

/-- Witness for C7 amended on the empty manager, store id 0. -/
theorem not_open_amended_witness :
    StoreManager.get_node ⟨[]⟩ [] 0 1 = .error (.NotOpen 0) ∧
    StoreManager.create_node ⟨[]⟩ [] 0 (Node.new "x" 1 0) none 0 = .error (.NotOpen 0) ∧
    StoreManager.delete_node ⟨[]⟩ [] 0 1 0 = .error (.NotOpen 0) ∧
    StoreManager.get_node_document ⟨[]⟩ [] 0 1 = .error (.NotOpen 0) ∧
    StoreManager.save_node_document ⟨[]⟩ [] 0 1 (CrdtDocument.new 0) 0 = .error (.NotOpen 0) ∧
    StoreManager.get_children ⟨[]⟩ [] 0 1 = .error (.NotOpen 0) ∧
    (StoreManager.flush ⟨[]⟩ [] 0 .allOk 0).1 = some (.NotOpen 0) ∧
    (∀ e, (StoreManager.flush_all ⟨[]⟩ [] .allOk 0).1 = some e → e = .ioError) :=
  not_open_amended ⟨[]⟩ [] 0 1 (Node.new "x" 1 0) none (CrdtDocument.new 0) .allOk 0 rfl

end Pimble


